import Mathlib

/-! Asynchronous gRPC dispatcher: call state machine and handler contract.

A shallow embedding of `GRPCAsyncServer.h`, `GRPCAsyncServer.cc`,
`GenericAsyncHandler.h` and the example handler of `AsyncStreamerServer.cc`.

Modelling conventions.

* Heap objects are addressed by natural numbers.  `CallData` records live in a
  list indexed by their address (the `void*` tag handed to the completion
  queue); a deleted record leaves `none` behind and its address is never
  reused.  Handler objects (`std::shared_ptr<AsyncServiceHandler>`) live in a
  total store indexed by address, with a bump allocator; shared pointers are
  taken to be non-null.
* The completion queue is the list of outstanding tagged operations.  Every
  tagged operation (a listen armed by `ListenForRequest`, a `Write`, a
  `WriteAndFinish`, an `Alarm::Set`) eventually surfaces as exactly one event
  that carries its tag.
* Calls into the handler and into the transport are recorded in a trace.
* C++ exceptions and undefined behaviour end a run with a `Crash`, together
  with the state in which the crash happened.
-/

namespace grpcserver

/-- Result of `SendResponse` (`AsyncServiceHandler::HandlerStatus`). -/
inductive HandlerStatus where
  | FINISHED
  | IDLE
  | ACTIVE
  deriving DecidableEq, Repr

/-- The states of a call (`CallData::CallStatus`). -/
inductive CallStatus where
  | CREATE
  | START_PROCESSING
  | CONTINUE_PROCESSING
  | PUSH_TO_BACK
  | FINISH
  deriving DecidableEq, Repr

/-- A C++ exception: `std::runtime_error`, or anything else. -/
inductive Fault where
  | runtime_error
  | other
  deriving DecidableEq, Repr

deriving instance DecidableEq for Except

/-- What one `SendResponse(tag)` call did: the handler object afterwards, the
number of operations it queued on the transport under `tag`, and either the
status it returned or the exception that escaped from it. -/
structure SendOutcome (σ : Type) where
  handler : σ
  tagged : Nat
  result : Except Fault HandlerStatus

/-- The abstract class `AsyncServiceHandler`: the three virtual functions, as
functions on the state `σ` of a handler object.  `ListenForRequest` arms one
listen under the tag it is given; `CreateNewHandler` is `const` and returns the
state of a newly allocated handler. -/
structure AsyncServiceHandler (σ : Type) where
  ListenForRequest : σ → σ
  SendResponse : σ → SendOutcome σ
  CreateNewHandler : σ → σ

/-- Calls observed during a run. -/
inductive Event where
  | AddListeningPort (address : String)
  | RegisterService (service : Nat)
  | AddCompletionQueue
  | BuildAndStart
  | new_CallData (tag handler : Nat)
  | ListenForRequest (tag handler : Nat)
  | CreateNewHandler (source created : Nat)
  | SendResponse (tag handler : Nat) (result : Except Fault HandlerStatus)
  | alarm_Set (tag micros : Nat)
  | delete_CallData (tag : Nat)
  | server_Shutdown
  | cq_Shutdown
  deriving DecidableEq

/-- The fields of `CallData` that the state machine reads and writes.  `ctx_`
and `cq_` are left out (there is one queue); an armed `alarm_` is an entry of
the queue.  `origin` is a ghost field: the index in `handlers_` of the seed
this record descends from, that is, its call type. -/
structure CallData where
  async_service_handler_ : Nat
  status_ : CallStatus
  origin : Nat
  deriving DecidableEq, Repr

/-- The dispatcher `GRPCAsyncServer` with the heap it works on.
`handlers_` holds the addresses of the seed handler objects, `objects` is the
store of handler objects and `next_object` the next free address in it,
`calls` is the store of `CallData` records, `cq` the outstanding tagged
operations of the completion queue. -/
structure GRPCAsyncServer (σ : Type) where
  port_ : Nat
  services_ : List Nat
  handlers_ : List Nat
  objects : Nat → σ
  next_object : Nat
  calls : List (Option CallData)
  cq : List Nat
  trace : List Event

/-- How a run can end abnormally. -/
inductive Crash where
  | assertion_failed
  | uncaught (e : Fault)
  | use_after_free (tag : Nat)
  | double_free (tag : Nat)
  deriving DecidableEq, Repr

/-- Outcome of an operation of the dispatcher: the next state, or a crash with
the state it happened in. -/
abbrev Result (σ : Type) := Except (Crash × GRPCAsyncServer σ) (GRPCAsyncServer σ)


namespace CallData

/-- Lines 78-81 of `GRPCAsyncServer.cc`, the `CREATE` branch of `Proceed`:
`ListenForRequest(&ctx_, cq_, this)` on the record's handler, which arms one
listen under the tag of the record, then `status_ = START_PROCESSING`. -/
def listen {σ : Type} (h : AsyncServiceHandler σ) (tag : Nat) (cd : CallData)
    (s : GRPCAsyncServer σ) : GRPCAsyncServer σ :=
  { s with
    objects := Function.update s.objects cd.async_service_handler_
      (h.ListenForRequest (s.objects cd.async_service_handler_))
    cq := s.cq ++ [tag]
    calls := s.calls.set tag (some { cd with status_ := CallStatus.START_PROCESSING })
    trace := s.trace ++ [Event.ListenForRequest tag cd.async_service_handler_] }

/-- The constructor `CallData(handler, cq)` behind `new CallData(...)`
(`GRPCAsyncServer.h`, lines 126-131): the record is allocated with
`status_(CREATE)` and the constructor body calls `Proceed()`, which therefore
runs the `CREATE` branch. -/
def new {σ : Type} (h : AsyncServiceHandler σ) (handler origin : Nat)
    (s : GRPCAsyncServer σ) : GRPCAsyncServer σ :=
  let cd : CallData :=
    { async_service_handler_ := handler, status_ := CallStatus.CREATE, origin := origin }
  listen h s.calls.length cd
    { s with
      calls := s.calls ++ [some cd]
      trace := s.trace ++ [Event.new_CallData s.calls.length handler] }

/-- Line 85: `new CallData(async_service_handler_->CreateNewHandler(), cq_)`.
The new handler object is allocated at the next free address. -/
def spawn {σ : Type} (h : AsyncServiceHandler σ) (cd : CallData)
    (s : GRPCAsyncServer σ) : GRPCAsyncServer σ :=
  new h s.next_object cd.origin
    { s with
      objects := Function.update s.objects s.next_object
        (h.CreateNewHandler (s.objects cd.async_service_handler_))
      next_object := s.next_object + 1
      trace := s.trace ++ [Event.CreateNewHandler cd.async_service_handler_ s.next_object] }

/-- Lines 86-94: `status_ = PUSH_TO_BACK`, then `SendResponse(this)`, then the
mapping of its result.  An exception that leaves `SendResponse` is not caught
here and leaves `Proceed`. -/
def respond {σ : Type} (h : AsyncServiceHandler σ) (tag : Nat) (cd : CallData)
    (s : GRPCAsyncServer σ) : Result σ :=
  let out := h.SendResponse (s.objects cd.async_service_handler_)
  let s1 : GRPCAsyncServer σ :=
    { s with
      objects := Function.update s.objects cd.async_service_handler_ out.handler
      cq := s.cq ++ List.replicate out.tagged tag
      calls := s.calls.set tag (some { cd with status_ := CallStatus.PUSH_TO_BACK })
      trace := s.trace ++ [Event.SendResponse tag cd.async_service_handler_ out.result] }
  match out.result with
  | Except.error e => Except.error (Crash.uncaught e, s1)
  | Except.ok HandlerStatus.FINISHED =>
    Except.ok { s1 with calls := s1.calls.set tag (some { cd with status_ := CallStatus.FINISH }) }
  | Except.ok HandlerStatus.IDLE =>
    Except.ok { s1 with
      cq := s1.cq ++ [tag]
      trace := s1.trace ++ [Event.alarm_Set tag 100]
      calls := s1.calls.set tag (some { cd with status_ := CallStatus.CONTINUE_PROCESSING }) }
  | Except.ok HandlerStatus.ACTIVE => Except.ok s1

/-- The statement `delete cd` (line 49) or `delete this` (line 102). -/
def delete {σ : Type} (tag : Nat) (s : GRPCAsyncServer σ) : GRPCAsyncServer σ :=
  { s with
    calls := s.calls.set tag none
    trace := s.trace ++ [Event.delete_CallData tag] }

/-- The function `GRPCAsyncServer::CallData::Proceed` (lines 75-104), called on
the record at address `tag`.  Calling it on a deleted record is a use after
free. -/
def Proceed {σ : Type} (h : AsyncServiceHandler σ) (tag : Nat)
    (s : GRPCAsyncServer σ) : Result σ :=
  match s.calls[tag]? with
  | some (some cd) =>
    match cd.status_ with
    | CallStatus.CREATE => Except.ok (listen h tag cd s)
    | CallStatus.START_PROCESSING => respond h tag cd (spawn h cd s)
    | CallStatus.CONTINUE_PROCESSING => respond h tag cd s
    | CallStatus.PUSH_TO_BACK =>
      Except.ok { s with
        calls := s.calls.set tag (some { cd with status_ := CallStatus.CONTINUE_PROCESSING })
        cq := s.cq ++ [tag]
        trace := s.trace ++ [Event.alarm_Set tag 0] }
    | CallStatus.FINISH => Except.ok (delete tag s)
  | _ => Except.error (Crash.use_after_free tag, s)

end CallData

/-- What one `cq_->AsyncNext(&tag, &ok, deadline)` returns (lines 117-119). -/
inductive Poll where
  | GOT_EVENT (tag : Nat) (ok : Bool)
  | TIMEOUT
  | SHUTDOWN
  deriving DecidableEq, Repr

namespace GRPCAsyncServer

/-- The constructor `GRPCAsyncServer(port, services, handlers)`
(`GRPCAsyncServer.h`, lines 102-109) on a heap that holds the handler objects
`objects` at the addresses below `next_object`. -/
def create {σ : Type} (port : Nat) (services handlers : List Nat) (objects : Nat → σ)
    (next_object : Nat) : GRPCAsyncServer σ :=
  { port_ := port, services_ := services, handlers_ := handlers, objects := objects,
    next_object := next_object, calls := [], cq := [], trace := [] }

/-- Lines 111-112: `for (handler : handlers_) new CallData(handler, cq_.get())`;
`i` is the index of the first handler of the list in `handlers_`. -/
def seed {σ : Type} (h : AsyncServiceHandler σ) :
    List Nat → Nat → GRPCAsyncServer σ → GRPCAsyncServer σ
  | [], _, s => s
  | p :: ps, i, s => seed h ps (i + 1) (CallData.new h p i s)

/-- One turn of the loop of `HandleRpcs` (lines 115-122).  The transport can
only deliver the tag of an outstanding operation, which then leaves the queue;
a poll that names no outstanding operation is a timeout. -/
def poll {σ : Type} (h : AsyncServiceHandler σ) (s : GRPCAsyncServer σ) : Poll → Result σ
  | Poll.GOT_EVENT tag ok =>
    if tag ∈ s.cq then
      if ok then CallData.Proceed h tag { s with cq := s.cq.erase tag }
      else Except.ok { s with cq := s.cq.erase tag }
    else Except.ok s
  | Poll.TIMEOUT => Except.ok s
  | Poll.SHUTDOWN => Except.ok s

/-- The loop `while (!should_exit)` of `HandleRpcs` (lines 114-123), run on the
polls that happen before `should_exit` is seen to be set. -/
def loop {σ : Type} (h : AsyncServiceHandler σ) :
    List Poll → GRPCAsyncServer σ → Result σ
  | [], s => Except.ok s
  | e :: es, s =>
    match poll h s e with
    | Except.ok s1 => loop h es s1
    | Except.error c => Except.error c

/-- The function `GRPCAsyncServer::HandleRpcs` (lines 106-124). -/
def HandleRpcs {σ : Type} (h : AsyncServiceHandler σ) (polls : List Poll)
    (s : GRPCAsyncServer σ) : Result σ :=
  if s.handlers_.isEmpty then Except.error (Crash.assertion_failed, s)
  else loop h polls (seed h s.handlers_ 0 s)

/-- Appends an event to the trace. -/
def log {σ : Type} (e : Event) (s : GRPCAsyncServer σ) : GRPCAsyncServer σ :=
  { s with trace := s.trace ++ [e] }

/-- The function `GRPCAsyncServer::Run` (lines 53-73), with `assert` enabled. -/
def Run {σ : Type} (h : AsyncServiceHandler σ) (polls : List Poll)
    (s : GRPCAsyncServer σ) : Result σ :=
  let s1 := log (Event.AddListeningPort ("0.0.0.0:" ++ toString s.port_)) s
  if s1.handlers_.isEmpty then Except.error (Crash.assertion_failed, s1)
  else
    let s2 := s1.services_.foldl (fun t service => log (Event.RegisterService service) t) s1
    let s3 := { log Event.AddCompletionQueue s2 with cq := [] }
    HandleRpcs h polls (log Event.BuildAndStart s3)

/-- The drain loop of `Shutdown` (lines 47-50): `Next` hands out every
outstanding tag, and each is deleted whatever its `ok`.  Deleting a record
twice is a double free. -/
def drain {σ : Type} : List Nat → GRPCAsyncServer σ → Result σ
  | [], s => Except.ok s
  | tag :: rest, s =>
    match s.calls[tag]? with
    | some (some _) => drain rest (CallData.delete tag { s with cq := rest })
    | _ => Except.error (Crash.double_free tag, { s with cq := rest })

/-- The function `GRPCAsyncServer::Shutdown` (lines 37-51). -/
def Shutdown {σ : Type} (s : GRPCAsyncServer σ) : Result σ :=
  let s1 := log Event.cq_Shutdown (log Event.server_Shutdown s)
  drain s1.cq s1

/-- A dispatcher from `Run` to its destruction, as in the thread body of
`main` (`AsyncStreamerServer.cc`, lines 103-106): `server.Run(should_exit)`
returns once the stop flag is seen, then the destructor `~GRPCAsyncServer`
calls `Shutdown`. -/
def RunAndShutdown {σ : Type} (h : AsyncServiceHandler σ) (polls : List Poll)
    (s : GRPCAsyncServer σ) : Result σ :=
  match Run h polls s with
  | Except.ok s1 => Shutdown s1
  | Except.error c => Except.error c

end GRPCAsyncServer

/-! ## The example handler of `AsyncStreamerServer.cc` -/

/-- A handler object of class `AsyncStreamHandler`, with the members it inherits
from `GenericAsyncHandler`: the request identifier `request_.req_id()`, whether
`responder_` holds a writer, and the counter.  The counter is a C++ `int`; it
is only ever decremented, from 2000, and overflow is not modelled. -/
structure AsyncStreamHandler where
  request_ : String
  responder_ : Bool
  num_responses_remaining_ : Int
  deriving DecidableEq, Repr

/-- A call on the streaming writer `responder_`, with the text of the chunk. -/
inductive WriterCall where
  | Write (response : String)
  | WriteAndFinish (response : String)
  deriving DecidableEq, Repr

/-- Where an exception is raised inside the `try` block of `SendResponse`:
while the response text is built (lines 43-45), or by the call on the writer
(lines 47-48 and 53-54), which then queues nothing. -/
inductive TryFault where
  | set_response (e : Fault)
  | writer (e : Fault)
  deriving DecidableEq, Repr

namespace AsyncStreamHandler

/-- What `AsyncStreamHandler::SendResponse` did: the handler afterwards, the
calls it made on the writer, and the status it returned. -/
structure Sent where
  handler : AsyncStreamHandler
  writes : List WriterCall
  status : HandlerStatus
  deriving DecidableEq, Repr

/-- The constructor: `responder_(nullptr)`, a default request, and
`num_responses_remaining_ = 2000` (line 70). -/
def construct : AsyncStreamHandler :=
  { request_ := "", responder_ := false, num_responses_remaining_ := 2000 }

/-- The chunk text of lines 44-45. -/
def response_text (x : AsyncStreamHandler) : String :=
  x.request_ ++ ": generic response number " ++ toString x.num_responses_remaining_

/-- Whether a call of `SendResponse` on `x` reaches `responder_->WriteAndFinish`
(line 48) or `responder_->Write` (line 54) while `responder_` holds no writer.
That is a null dereference, which no `catch` clause turns into a status: the
call does not return.  It cannot happen once `ListenForRequest` has bound the
writer. -/
def dereferences_null_writer (fault : Option TryFault) (x : AsyncStreamHandler) : Bool :=
  !x.responder_ &&
    match fault with
    | some (TryFault.set_response _) => false
    | _ => x.num_responses_remaining_ - 1 = 0 || Int.tmod (x.num_responses_remaining_ - 1) 2 ≠ 0

/-- The function `AsyncStreamHandler::SendResponse` (lines 38-68), for a call
that does not dereference a null writer (`dereferences_null_writer` is false, as
it is on every handler whose `responder_` is bound); the statements about this
function are made for such calls.  `fault` tells whether and where the `try`
block raises; both `catch` clauses set `status = FINISHED`.  The counter is
decremented before the `try`. -/
def SendResponse (fault : Option TryFault) (x : AsyncStreamHandler) : Sent :=
  let x1 : AsyncStreamHandler :=
    { x with num_responses_remaining_ := x.num_responses_remaining_ - 1 }
  let caught : Sent := { handler := x1, writes := [], status := HandlerStatus.FINISHED }
  match fault with
  | some (TryFault.set_response _) => caught
  | some (TryFault.writer _) =>
    if x1.num_responses_remaining_ = 0 then caught
    else if Int.tmod x1.num_responses_remaining_ 2 ≠ 0 then caught
    else { handler := x1, writes := [], status := HandlerStatus.IDLE }
  | none =>
    if x1.num_responses_remaining_ = 0 then
      { handler := x1, writes := [WriterCall.WriteAndFinish (response_text x1)],
        status := HandlerStatus.FINISHED }
    else if Int.tmod x1.num_responses_remaining_ 2 ≠ 0 then
      { handler := x1, writes := [WriterCall.Write (response_text x1)],
        status := HandlerStatus.ACTIVE }
    else { handler := x1, writes := [], status := HandlerStatus.IDLE }

end AsyncStreamHandler

namespace GenericAsyncHandler

/-- The condition of `assert(!responder_.get())` (`GenericAsyncHandler.h`,
line 51). -/
def ListenForRequest_assertion (x : AsyncStreamHandler) : Bool := !x.responder_

/-- The effect of `GenericAsyncHandler::ListenForRequest` (lines 48-55) on the
handler: `responder_.reset(new GRPCWriter(ctx))`; the registration callback
then arms the listen under the tag. -/
def ListenForRequest (x : AsyncStreamHandler) : AsyncStreamHandler :=
  { x with responder_ := true }

/-- The function `GenericAsyncHandler::CreateNewHandler` (lines 57-60):
`new Derived(request_service_func_)`, whatever the state of `this`. -/
def CreateNewHandler (_ : AsyncStreamHandler) : AsyncStreamHandler :=
  AsyncStreamHandler.construct

end GenericAsyncHandler

/-- The class `AsyncStreamHandler` behind the interface `AsyncServiceHandler`.
`env` tells for which handler states the `try` block of `SendResponse` raises.
Every call on the writer is one operation queued under the tag. -/
def AsyncStreamHandler.handler (env : AsyncStreamHandler → Option TryFault) :
    AsyncServiceHandler AsyncStreamHandler :=
  { ListenForRequest := GenericAsyncHandler.ListenForRequest
    SendResponse := fun x =>
      { handler := (AsyncStreamHandler.SendResponse (env x) x).handler
        tagged := (AsyncStreamHandler.SendResponse (env x) x).writes.length
        result := Except.ok (AsyncStreamHandler.SendResponse (env x) x).status }
    CreateNewHandler := GenericAsyncHandler.CreateNewHandler }

/-! ## Handlers used as concrete inputs -/

/-- A handler that answers from a script: its `SendResponse` returns the next
status of `remaining` (and `FINISHED` once the script is used up), queueing one
write under the tag unless the status is `IDLE`.  `CreateNewHandler` returns a
handler that starts the script over. -/
structure Scripted where
  script : List HandlerStatus
  remaining : List HandlerStatus
  deriving DecidableEq, Repr

/-- The `SendResponse` of a scripted handler. -/
def Scripted.SendResponse (x : Scripted) : SendOutcome Scripted :=
  match x.remaining with
  | [] => { handler := x, tagged := 1, result := Except.ok HandlerStatus.FINISHED }
  | r :: rs =>
    { handler := { x with remaining := rs }
      tagged := if r = HandlerStatus.IDLE then 0 else 1
      result := Except.ok r }

/-- The scripted handler behind the interface. -/
def Scripted.handler : AsyncServiceHandler Scripted :=
  { ListenForRequest := fun x => x
    SendResponse := Scripted.SendResponse
    CreateNewHandler := fun x => { x with remaining := x.script } }

/-- A handler whose `SendResponse` throws `std::runtime_error` without writing
anything and without catching it. -/
def Throwing.handler : AsyncServiceHandler Unit :=
  { ListenForRequest := fun x => x
    SendResponse := fun x =>
      { handler := x, tagged := 0, result := Except.error Fault.runtime_error }
    CreateNewHandler := fun x => x }

/-! ## Vocabulary of the statements -/

/-- The state that `Proceed` gives a record after `SendResponse` returned `r`
(lines 86-94). -/
def CallStatus.after : HandlerStatus → CallStatus
  | HandlerStatus.FINISHED => CallStatus.FINISH
  | HandlerStatus.IDLE => CallStatus.CONTINUE_PROCESSING
  | HandlerStatus.ACTIVE => CallStatus.PUSH_TO_BACK

/-- The calls made when a record with handler `p` spawns its replacement in
state `s`: the new handler and the new record take the next free addresses. -/
def spawnEvents {σ : Type} (s : GRPCAsyncServer σ) (p : Nat) : List Event :=
  [Event.CreateNewHandler p s.next_object, Event.new_CallData s.calls.length s.next_object,
    Event.ListenForRequest s.calls.length s.next_object]

/-- The crash a result ended with, if any. -/
def Result.crash {σ : Type} : Result σ → Option Crash
  | Except.ok _ => none
  | Except.error c => some c.1

/-- The state a result ended in, crashed or not. -/
def Result.state {σ : Type} : Result σ → GRPCAsyncServer σ
  | Except.ok s => s
  | Except.error c => c.2

/-- The record at `tag` is allocated and not deleted. -/
def GRPCAsyncServer.live {σ : Type} (s : GRPCAsyncServer σ) (tag : Nat) : Bool :=
  match s.calls[tag]? with
  | some (some _) => true
  | _ => false

/-- The addresses of the records that were created and not deleted. -/
def GRPCAsyncServer.undestroyed {σ : Type} (s : GRPCAsyncServer σ) : List Nat :=
  (List.range s.calls.length).filter (fun tag => s.live tag)

/-- The slot holds a live record of call type `i` that is in `START_PROCESSING`:
a listener that is armed and not yet matched to a call. -/
def CallData.armedFor (i : Nat) : Option CallData → Bool
  | some cd => cd.origin = i && cd.status_ = CallStatus.START_PROCESSING
  | none => false

/-- Number of live records of call type `i` that are in `START_PROCESSING`. -/
def GRPCAsyncServer.armed {σ : Type} (s : GRPCAsyncServer σ) (i : Nat) : Nat :=
  s.calls.countP (CallData.armedFor i)

/-- A server with one seed handler, a scripted one, at address 0. -/
def Scripted.server (script : List HandlerStatus) : GRPCAsyncServer Scripted :=
  GRPCAsyncServer.create 9314 [0] [0] (fun _ => { script := script, remaining := script }) 1

/-- No record in the store is in `CREATE`: the constructor has already run the
first `Proceed`. -/
def NoCreate {σ : Type} (s : GRPCAsyncServer σ) : Prop :=
  ∀ cd : CallData, some cd ∈ s.calls → cd.status_ ≠ CallStatus.CREATE

/-- The record `tag` is woken `k` times in a row: `k` calls of `Proceed`. -/
def advance {σ : Type} (h : AsyncServiceHandler σ) (tag : Nat) :
    Nat → GRPCAsyncServer σ → Result σ
  | 0, s => Except.ok s
  | k + 1, s =>
    match CallData.Proceed h tag s with
    | Except.ok s1 => advance h tag k s1
    | Except.error c => Except.error c

/-- The results of `k` successive `SendResponse` calls on a handler object that
starts in state `x`. -/
def responses {σ : Type} (h : AsyncServiceHandler σ) : Nat → σ → List (Except Fault HandlerStatus)
  | 0, _ => []
  | k + 1, x => (h.SendResponse x).result :: responses h k (h.SendResponse x).handler

/-- The calls `Proceed` makes for one non-final result of `SendResponse`, on the
record `tag` with handler `p`: for `ACTIVE` the call and, one wake-up later, the
immediate alarm of `PUSH_TO_BACK`; for `IDLE` the call and the deferred alarm. -/
def chunkEvents (tag p : Nat) : HandlerStatus → List Event
  | HandlerStatus.ACTIVE =>
    [Event.SendResponse tag p (Except.ok HandlerStatus.ACTIVE), Event.alarm_Set tag 0]
  | r => [Event.SendResponse tag p (Except.ok r), Event.alarm_Set tag 100]

/-- The calls made when records are created one after the other for the
handlers `ps`, the first at address `n`. -/
def seedEvents : Nat → List Nat → List Event
  | _, [] => []
  | n, p :: ps => Event.new_CallData n p :: Event.ListenForRequest n p :: seedEvents (n + 1) ps

/-- The outcomes of `k` successive calls of `AsyncStreamHandler::SendResponse`
on a handler that starts in state `x`, when no exception is raised. -/
def AsyncStreamHandler.sends : Nat → AsyncStreamHandler → List AsyncStreamHandler.Sent
  | 0, _ => []
  | k + 1, x =>
    AsyncStreamHandler.SendResponse none x ::
      AsyncStreamHandler.sends k (AsyncStreamHandler.SendResponse none x).handler

/-- The handler with request identifier `req` whose counter stands at `n`. -/
def AsyncStreamHandler.withCounter (req : String) (resp : Bool) (n : Nat) : AsyncStreamHandler :=
  { request_ := req, responder_ := resp, num_responses_remaining_ := n }

/-- The text of the chunk numbered `n` for the request `req`. -/
def AsyncStreamHandler.chunk (req : String) (n : Nat) : String :=
  req ++ ": generic response number " ++ toString (n : Int)

/-- Whether the `try` block of `AsyncStreamHandler::SendResponse` really raises
on the handler `x` under `fault`: building the text can always raise, the
writer only on the branches that call it. -/
def AsyncStreamHandler.raises (fault : Option TryFault) (x : AsyncStreamHandler) : Bool :=
  match fault with
  | some (TryFault.set_response _) => true
  | some (TryFault.writer _) =>
    x.num_responses_remaining_ - 1 = 0 || Int.tmod (x.num_responses_remaining_ - 1) 2 ≠ 0
  | none => false

/-- The tags of the `delete` statements of a trace, in order. -/
def deletions : List Event → List Nat
  | [] => []
  | Event.delete_CallData tag :: es => tag :: deletions es
  | _ :: es => deletions es

/-- The tags of the `SendResponse` calls of a trace, in order. -/
def sendTags : List Event → List Nat
  | [] => []
  | Event.SendResponse tag _ _ :: es => tag :: sendTags es
  | _ :: es => sendTags es

/-- Number of `SendResponse` calls in a trace. -/
def sendCount (es : List Event) : Nat := (sendTags es).length

/-- Every outstanding operation of the queue belongs to a live record, and no
record has two of them. -/
def QueueOK {σ : Type} (s : GRPCAsyncServer σ) : Prop :=
  s.cq.Nodup ∧ ∀ t, t ∈ s.cq → ∃ cd, s.calls[t]? = some (some cd)

/-- No record has been deleted twice, and the records deleted so far are the
ones marked as deleted in the store. -/
def DeletedOK {σ : Type} (s : GRPCAsyncServer σ) : Prop :=
  (deletions s.trace).Nodup ∧ ∀ t, t ∈ deletions s.trace → s.calls[t]? = some none

/-- Every live record has an outstanding operation in the queue. -/
def LiveQueued {σ : Type} (s : GRPCAsyncServer σ) : Prop :=
  ∀ t cd, s.calls[t]? = some (some cd) → t ∈ s.cq

/-- A handler object of class `AsyncStreamHandler` with a monitor of the
assertion of `GenericAsyncHandler::ListenForRequest`: `assertion_failed` is set
as soon as `ListenForRequest` is entered on the object while `responder_`
already holds a writer, and stays set. -/
structure GenericAsyncHandler.Monitored where
  object : AsyncStreamHandler
  assertion_failed : Bool
  deriving DecidableEq, Repr

/-- The function `GenericAsyncHandler::ListenForRequest` (lines 48-55) under the
monitor: line 51 evaluates `assert(!responder_.get())`, lines 52-54 bind the
writer and arm the listen. -/
def GenericAsyncHandler.Monitored.ListenForRequest (m : GenericAsyncHandler.Monitored) :
    GenericAsyncHandler.Monitored :=
  { object := GenericAsyncHandler.ListenForRequest m.object
    assertion_failed :=
      m.assertion_failed || !GenericAsyncHandler.ListenForRequest_assertion m.object }

/-- The class `AsyncStreamHandler` behind the interface, with the monitor:
`SendResponse` and `CreateNewHandler` are those of `AsyncStreamHandler.handler`;
an object made by `CreateNewHandler` has not failed any assertion. -/
def AsyncStreamHandler.monitored (env : AsyncStreamHandler → Option TryFault) :
    AsyncServiceHandler GenericAsyncHandler.Monitored :=
  { ListenForRequest := GenericAsyncHandler.Monitored.ListenForRequest
    SendResponse := fun m =>
      { handler :=
          { m with object := ((AsyncStreamHandler.handler env).SendResponse m.object).handler }
        tagged := ((AsyncStreamHandler.handler env).SendResponse m.object).tagged
        result := ((AsyncStreamHandler.handler env).SendResponse m.object).result }
    CreateNewHandler := fun m =>
      { object := GenericAsyncHandler.CreateNewHandler m.object, assertion_failed := false } }

/-- The `ListenForRequest` calls of a trace, in order: the record that made the
call and the handler object it was made on. -/
def listens : List Event → List (Nat × Nat)
  | [] => []
  | Event.ListenForRequest tag handler :: es => (tag, handler) :: listens es
  | _ :: es => listens es

/-- No record of the store is in `CREATE`, every `ListenForRequest` call so far
was made by an allocated record on an allocated handler object, no record made
two of them and no handler object received two of them. -/
def ListenOnce {σ : Type} (s : GRPCAsyncServer σ) : Prop :=
  NoCreate s ∧
  (∀ e, e ∈ listens s.trace → e.1 < s.calls.length ∧ e.2 < s.next_object) ∧
  ((listens s.trace).map Prod.fst).Nodup ∧
  ((listens s.trace).map Prod.snd).Nodup

/-- Every record of the store has a handler object whose writer is bound. -/
def WriterBound (s : GRPCAsyncServer AsyncStreamHandler) : Prop :=
  ∀ cd : CallData, some cd ∈ s.calls → (s.objects cd.async_service_handler_).responder_ = true

/-- The handler contract on writes: a `SendResponse` that returns `ACTIVE` or
`FINISHED` has queued exactly one write under the tag, and one that returns
`IDLE` has queued none. -/
def OneWritePerChunk {σ : Type} (h : AsyncServiceHandler σ) : Prop :=
  ∀ x : σ, ∀ r : HandlerStatus, (h.SendResponse x).result = Except.ok r →
    (h.SendResponse x).tagged = if r = HandlerStatus.IDLE then 0 else 1

open CallStatus HandlerStatus

/-! ## Stores and single steps -/

theorem lt_length_of_getElem? {α : Type} {l : List α} {i : Nat} {a : α}
    (hi : l[i]? = some a) : i < l.length := by
  rcases Nat.lt_or_ge i l.length with hlt | hge
  · exact hlt
  · rw [List.getElem?_eq_none hge] at hi; cases hi

namespace CallData

section fields

variable {σ : Type} (h : AsyncServiceHandler σ)

@[simp] theorem new_calls (p o : Nat) (s : GRPCAsyncServer σ) :
    (new h p o s).calls = s.calls ++ [some ⟨p, START_PROCESSING, o⟩] := by
  simp [new, listen]

@[simp] theorem new_cq (p o : Nat) (s : GRPCAsyncServer σ) :
    (new h p o s).cq = s.cq ++ [s.calls.length] := by
  simp [new, listen]

@[simp] theorem new_trace (p o : Nat) (s : GRPCAsyncServer σ) :
    (new h p o s).trace = s.trace ++
      [Event.new_CallData s.calls.length p, Event.ListenForRequest s.calls.length p] := by
  simp [new, listen]

@[simp] theorem new_objects (p o : Nat) (s : GRPCAsyncServer σ) :
    (new h p o s).objects = Function.update s.objects p (h.ListenForRequest (s.objects p)) := by
  simp [new, listen]

@[simp] theorem new_next_object (p o : Nat) (s : GRPCAsyncServer σ) :
    (new h p o s).next_object = s.next_object := rfl

@[simp] theorem new_handlers_ (p o : Nat) (s : GRPCAsyncServer σ) :
    (new h p o s).handlers_ = s.handlers_ := rfl

@[simp] theorem spawn_calls (cd : CallData) (s : GRPCAsyncServer σ) :
    (spawn h cd s).calls = s.calls ++ [some ⟨s.next_object, START_PROCESSING, cd.origin⟩] := by
  simp [spawn]

@[simp] theorem spawn_cq (cd : CallData) (s : GRPCAsyncServer σ) :
    (spawn h cd s).cq = s.cq ++ [s.calls.length] := by
  simp [spawn]

@[simp] theorem spawn_trace (cd : CallData) (s : GRPCAsyncServer σ) :
    (spawn h cd s).trace = s.trace ++ spawnEvents s cd.async_service_handler_ := by
  simp [spawn, spawnEvents]

@[simp] theorem spawn_next_object (cd : CallData) (s : GRPCAsyncServer σ) :
    (spawn h cd s).next_object = s.next_object + 1 := rfl

@[simp] theorem spawn_handlers_ (cd : CallData) (s : GRPCAsyncServer σ) :
    (spawn h cd s).handlers_ = s.handlers_ := rfl

theorem spawn_objects (cd : CallData) (s : GRPCAsyncServer σ) :
    (spawn h cd s).objects = Function.update s.objects s.next_object
      (h.ListenForRequest (h.CreateNewHandler (s.objects cd.async_service_handler_))) := by
  simp [spawn]

theorem spawn_objects_of_ne (cd : CallData) (s : GRPCAsyncServer σ) (q : Nat)
    (hq : q ≠ s.next_object) : (spawn h cd s).objects q = s.objects q := by
  rw [spawn_objects, Function.update_noteq hq]

end fields

end CallData

namespace CallData

section steps

variable {σ : Type} (h : AsyncServiceHandler σ)

theorem respond_ok (tag : Nat) (cd : CallData) (s : GRPCAsyncServer σ) {r : HandlerStatus}
    (hr : (h.SendResponse (s.objects cd.async_service_handler_)).result = Except.ok r) :
    ∃ s', respond h tag cd s = Except.ok s' ∧
      s'.calls = s.calls.set tag (some { cd with status_ := CallStatus.after r }) ∧
      s'.objects = Function.update s.objects cd.async_service_handler_
        (h.SendResponse (s.objects cd.async_service_handler_)).handler ∧
      s'.cq = s.cq ++
        List.replicate (h.SendResponse (s.objects cd.async_service_handler_)).tagged tag ++
        (if r = IDLE then [tag] else []) ∧
      s'.trace = s.trace ++ Event.SendResponse tag cd.async_service_handler_ (Except.ok r) ::
        (if r = IDLE then [Event.alarm_Set tag 100] else []) ∧
      s'.next_object = s.next_object ∧ s'.handlers_ = s.handlers_ := by
  unfold respond
  cases r <;> simp [hr, CallStatus.after]

theorem respond_error (tag : Nat) (cd : CallData) (s : GRPCAsyncServer σ) {e : Fault}
    (hr : (h.SendResponse (s.objects cd.async_service_handler_)).result = Except.error e) :
    ∃ s', respond h tag cd s = Except.error (Crash.uncaught e, s') ∧
      s'.calls = s.calls.set tag (some { cd with status_ := PUSH_TO_BACK }) ∧
      s'.cq = s.cq ++
        List.replicate (h.SendResponse (s.objects cd.async_service_handler_)).tagged tag ∧
      s'.trace = s.trace ++ [Event.SendResponse tag cd.async_service_handler_ (Except.error e)] ∧
      s'.next_object = s.next_object ∧ s'.handlers_ = s.handlers_ := by
  unfold respond
  simp [hr]

variable {h}

theorem Proceed_CREATE {tag : Nat} {cd : CallData} {s : GRPCAsyncServer σ}
    (hcd : s.calls[tag]? = some (some cd)) (hst : cd.status_ = CREATE) :
    Proceed h tag s = Except.ok (listen h tag cd s) := by
  unfold Proceed; rw [hcd]; simp only [hst]

theorem Proceed_START {tag : Nat} {cd : CallData} {s : GRPCAsyncServer σ}
    (hcd : s.calls[tag]? = some (some cd)) (hst : cd.status_ = START_PROCESSING) :
    Proceed h tag s = respond h tag cd (spawn h cd s) := by
  unfold Proceed; rw [hcd]; simp only [hst]

theorem Proceed_CONTINUE {tag : Nat} {cd : CallData} {s : GRPCAsyncServer σ}
    (hcd : s.calls[tag]? = some (some cd)) (hst : cd.status_ = CONTINUE_PROCESSING) :
    Proceed h tag s = respond h tag cd s := by
  unfold Proceed; rw [hcd]; simp only [hst]

theorem Proceed_PUSH {tag : Nat} {cd : CallData} {s : GRPCAsyncServer σ}
    (hcd : s.calls[tag]? = some (some cd)) (hst : cd.status_ = PUSH_TO_BACK) :
    Proceed h tag s = Except.ok { s with
      calls := s.calls.set tag (some { cd with status_ := CONTINUE_PROCESSING })
      cq := s.cq ++ [tag]
      trace := s.trace ++ [Event.alarm_Set tag 0] } := by
  unfold Proceed; rw [hcd]; simp only [hst]

theorem Proceed_FINISH {tag : Nat} {cd : CallData} {s : GRPCAsyncServer σ}
    (hcd : s.calls[tag]? = some (some cd)) (hst : cd.status_ = FINISH) :
    Proceed h tag s = Except.ok (delete tag s) := by
  unfold Proceed; rw [hcd]; simp only [hst]

theorem Proceed_dead {tag : Nat} {s : GRPCAsyncServer σ}
    (hcd : ∀ cd, s.calls[tag]? ≠ some (some cd)) :
    Proceed h tag s = Except.error (Crash.use_after_free tag, s) := by
  unfold Proceed
  split
  · next cd hc => exact absurd hc (hcd cd)
  · rfl

end steps

end CallData

/-! ## The listener invariant -/

theorem countP_set_of_getElem? {α : Type} (p : α → Bool) (a c : α) :
    ∀ (l : List α) (i : Nat), l[i]? = some c →
      List.countP p (l.set i a) + (if p c then 1 else 0) =
        List.countP p l + (if p a then 1 else 0) := by
  intro l
  induction l with
  | nil => intro i hi; simp at hi
  | cons b l ih =>
    intro i hi
    cases i with
    | zero =>
      simp at hi
      subst hi
      simp [List.countP_cons]
      omega
    | succ j =>
      simp at hi
      have := ih j hi
      simp [List.countP_cons]
      omega

theorem after_ne_START (r : HandlerStatus) : CallStatus.after r ≠ START_PROCESSING := by
  cases r <;> simp [CallStatus.after]

theorem after_ne_CREATE (r : HandlerStatus) : CallStatus.after r ≠ CREATE := by
  cases r <;> simp [CallStatus.after]

theorem mem_of_getElem?' {α : Type} {l : List α} {i : Nat} {a : α} (hi : l[i]? = some a) :
    a ∈ l := by
  obtain ⟨hlt, rfl⟩ := List.getElem?_eq_some.mp hi
  exact List.getElem_mem hlt

theorem NoCreate_set {σ : Type} {s s' : GRPCAsyncServer σ} {tag : Nat} {c : Option CallData}
    (hs : NoCreate s) (hc : ∀ cd, c = some cd → cd.status_ ≠ CREATE)
    (hcalls : s'.calls = s.calls.set tag c) : NoCreate s' := by
  intro cd hmem
  rw [hcalls] at hmem
  rcases List.mem_or_eq_of_mem_set hmem with hm | hm
  · exact hs cd hm
  · exact hc cd hm.symm

/-- One successful `Proceed` keeps the number of armed listeners of every call
type, and leaves no record in `CREATE`. -/
theorem Proceed_armed {σ : Type} {h : AsyncServiceHandler σ} {s s' : GRPCAsyncServer σ}
    {tag : Nat} (hs : NoCreate s) (hp : CallData.Proceed h tag s = Except.ok s') :
    NoCreate s' ∧ ∀ i, s'.armed i = s.armed i := by
  cases hcd : s.calls[tag]? with
  | none =>
    rw [CallData.Proceed_dead (by intro cd; rw [hcd]; simp)] at hp; cases hp
  | some c =>
    cases c with
    | none => rw [CallData.Proceed_dead (by intro cd; rw [hcd]; simp)] at hp; cases hp
    | some cd =>
      have hmem : some cd ∈ s.calls := mem_of_getElem?' hcd
      have hlt := lt_length_of_getElem? hcd
      cases hst : cd.status_ with
      | CREATE => exact absurd hst (hs cd hmem)
      | START_PROCESSING =>
        rw [CallData.Proceed_START hcd hst] at hp
        cases hr : (h.SendResponse ((CallData.spawn h cd s).objects
            cd.async_service_handler_)).result with
        | error e =>
          obtain ⟨s1, h1, -⟩ := CallData.respond_error h tag cd _ hr
          rw [h1] at hp; cases hp
        | ok r =>
          obtain ⟨s1, h1, hc, -⟩ := CallData.respond_ok h tag cd _ hr
          rw [h1] at hp; cases hp
          rw [CallData.spawn_calls] at hc
          constructor
          · intro cd' hmem'
            rw [hc] at hmem'
            rcases List.mem_or_eq_of_mem_set hmem' with hm | hm
            · rcases List.mem_append.mp hm with hm | hm
              · exact hs cd' hm
              · simp at hm; subst hm; simp
            · simp at hm; subst hm; exact after_ne_CREATE r
          · intro i
            have hget : (s.calls ++ [some (CallData.mk s.next_object START_PROCESSING
                cd.origin)])[tag]? = some (some cd) := by
              rw [List.getElem?_append_left hlt]; exact hcd
            have := countP_set_of_getElem? (CallData.armedFor i)
              (some { cd with status_ := CallStatus.after r }) (some cd) _ tag hget
            simp only [GRPCAsyncServer.armed, hc]
            simp [List.countP_append, List.countP_singleton, CallData.armedFor, hst,
              after_ne_START r] at this ⊢
            omega
      | CONTINUE_PROCESSING =>
        rw [CallData.Proceed_CONTINUE hcd hst] at hp
        cases hr : (h.SendResponse (s.objects cd.async_service_handler_)).result with
        | error e =>
          obtain ⟨s1, h1, -⟩ := CallData.respond_error h tag cd _ hr
          rw [h1] at hp; cases hp
        | ok r =>
          obtain ⟨s1, h1, hc, -⟩ := CallData.respond_ok h tag cd _ hr
          rw [h1] at hp; cases hp
          refine ⟨NoCreate_set hs ?_ hc, ?_⟩
          · intro cd' hcd'; cases hcd'; exact after_ne_CREATE r
          · intro i
            have := countP_set_of_getElem? (CallData.armedFor i)
              (some { cd with status_ := CallStatus.after r }) (some cd) _ tag hcd
            simp only [GRPCAsyncServer.armed, hc]
            simpa [CallData.armedFor, hst, after_ne_START r] using this
      | PUSH_TO_BACK =>
        rw [CallData.Proceed_PUSH hcd hst] at hp
        cases hp
        refine ⟨NoCreate_set hs ?_ rfl, ?_⟩
        · intro cd' hcd'; cases hcd'; simp
        · intro i
          have := countP_set_of_getElem? (CallData.armedFor i)
            (some { cd with status_ := CONTINUE_PROCESSING }) (some cd) _ tag hcd
          simp only [GRPCAsyncServer.armed]
          simpa [CallData.armedFor, hst] using this
      | FINISH =>
        rw [CallData.Proceed_FINISH hcd hst] at hp
        cases hp
        refine ⟨NoCreate_set hs ?_ rfl, ?_⟩
        · intro cd' hcd'; cases hcd'
        · intro i
          have := countP_set_of_getElem? (CallData.armedFor i) none (some cd) _ tag hcd
          simp only [GRPCAsyncServer.armed, CallData.delete]
          simpa [CallData.armedFor, hst] using this

theorem poll_armed {σ : Type} {h : AsyncServiceHandler σ} {s s' : GRPCAsyncServer σ}
    {e : Poll} (hs : NoCreate s) (hp : GRPCAsyncServer.poll h s e = Except.ok s') :
    NoCreate s' ∧ ∀ i, s'.armed i = s.armed i := by
  cases e with
  | GOT_EVENT tag ok =>
    simp only [GRPCAsyncServer.poll] at hp
    split at hp
    · split at hp
      · exact Proceed_armed (s := { s with cq := s.cq.erase tag }) hs hp
      · cases hp; exact ⟨hs, fun _ => rfl⟩
    · cases hp; exact ⟨hs, fun _ => rfl⟩
  | TIMEOUT => cases hp; exact ⟨hs, fun _ => rfl⟩
  | SHUTDOWN => cases hp; exact ⟨hs, fun _ => rfl⟩

theorem loop_armed {σ : Type} {h : AsyncServiceHandler σ} (polls : List Poll) :
    ∀ {s s' : GRPCAsyncServer σ}, NoCreate s → GRPCAsyncServer.loop h polls s = Except.ok s' →
      NoCreate s' ∧ ∀ i, s'.armed i = s.armed i := by
  induction polls with
  | nil => intro s s' hs hl; cases hl; exact ⟨hs, fun _ => rfl⟩
  | cons e es ih =>
    intro s s' hs hl
    simp only [GRPCAsyncServer.loop] at hl
    cases hp : GRPCAsyncServer.poll h s e with
    | error c => rw [hp] at hl; cases hl
    | ok s1 =>
      rw [hp] at hl
      obtain ⟨h1, h2⟩ := poll_armed hs hp
      obtain ⟨h3, h4⟩ := ih h1 hl
      exact ⟨h3, fun i => by rw [h4, h2]⟩

theorem seed_armed {σ : Type} (h : AsyncServiceHandler σ) (ps : List Nat) :
    ∀ (i : Nat) (s : GRPCAsyncServer σ), NoCreate s →
      NoCreate (GRPCAsyncServer.seed h ps i s) ∧
      ∀ j, (GRPCAsyncServer.seed h ps i s).armed j =
        s.armed j + (if i ≤ j ∧ j < i + ps.length then 1 else 0) := by
  induction ps with
  | nil => intro i s hs; exact ⟨hs, fun j => by simp [GRPCAsyncServer.seed]⟩
  | cons p ps ih =>
    intro i s hs
    have hn : NoCreate (CallData.new h p i s) := by
      intro cd hmem
      rw [CallData.new_calls] at hmem
      rcases List.mem_append.mp hmem with hm | hm
      · exact hs cd hm
      · simp at hm; subst hm; simp
    obtain ⟨h1, h2⟩ := ih (i + 1) _ hn
    refine ⟨h1, fun j => ?_⟩
    simp only [GRPCAsyncServer.seed]
    rw [h2 j]
    simp only [GRPCAsyncServer.armed, CallData.new_calls, List.countP_append,
      List.countP_singleton, CallData.armedFor, List.length_cons]
    by_cases hij : i = j
    · subst hij; simp
    · have : ¬ (i ≤ j ∧ j < i + (ps.length + 1)) ↔ ¬ (i + 1 ≤ j ∧ j < i + 1 + ps.length) := by
        omega
      by_cases hc : i + 1 ≤ j ∧ j < i + 1 + ps.length
      · have hc' : i ≤ j ∧ j < i + (ps.length + 1) := by omega
        simp [hij, hc, hc']
      · have hc' : ¬ (i ≤ j ∧ j < i + (ps.length + 1)) := by omega
        simp [hij, hc, hc']

/-- C1, listener invariant.  Start from a dispatcher that holds no record, let
`HandleRpcs` seed one record per handler and run its loop over any polls
(successful wake-ups, and also failed events and timeouts).  In every state
`s` reached without a crash, each call type `i` of `handlers_` has exactly one
live record in `START_PROCESSING`.  With no polls this is the state right after
seeding.  Moreover a `Proceed` that finds its record in `START_PROCESSING`
allocates exactly one new record, which is in `START_PROCESSING` and of the same
call type, and leaves the old record in another state. -/
theorem C1_listener_invariant {σ : Type} (h : AsyncServiceHandler σ) (polls : List Poll)
    (s0 s : GRPCAsyncServer σ) (hempty : s0.calls = [])
    (hrun : GRPCAsyncServer.HandleRpcs h polls s0 = Except.ok s) :
    (∀ i, i < s0.handlers_.length → s.armed i = 1) ∧
    (∀ (t : GRPCAsyncServer σ) (tag : Nat) (cd : CallData) (t' : GRPCAsyncServer σ),
      t.calls[tag]? = some (some cd) → cd.status_ = START_PROCESSING →
      CallData.Proceed h tag t = Except.ok t' →
        t'.calls.length = t.calls.length + 1 ∧
        t'.calls[t.calls.length]? =
          some (some ⟨t.next_object, START_PROCESSING, cd.origin⟩) ∧
        ∃ r, t'.calls[tag]? = some (some { cd with status_ := CallStatus.after r }) ∧
          CallStatus.after r ≠ START_PROCESSING) := by
  constructor
  · intro i hi
    unfold GRPCAsyncServer.HandleRpcs at hrun
    split at hrun
    · cases hrun
    · have h0 : NoCreate s0 := by intro cd hmem; rw [hempty] at hmem; cases hmem
      obtain ⟨h1, h2⟩ := seed_armed h s0.handlers_ 0 s0 h0
      obtain ⟨-, h4⟩ := loop_armed polls h1 hrun
      rw [h4, h2]
      simp [GRPCAsyncServer.armed, hempty, hi]
  · intro t tag cd t' hcd hst hp
    have hlt := lt_length_of_getElem? hcd
    rw [CallData.Proceed_START hcd hst] at hp
    cases hr : (h.SendResponse ((CallData.spawn h cd t).objects
        cd.async_service_handler_)).result with
    | error e =>
      obtain ⟨s1, h1, -⟩ := CallData.respond_error h tag cd _ hr
      rw [h1] at hp; cases hp
    | ok r =>
      obtain ⟨s1, h1, hc, -⟩ := CallData.respond_ok h tag cd _ hr
      rw [h1] at hp; cases hp
      rw [CallData.spawn_calls] at hc
      refine ⟨by rw [hc]; simp, ?_, r, ?_, after_ne_START r⟩
      · rw [hc, List.getElem?_set_ne (Nat.ne_of_lt hlt), List.getElem?_concat_length]
      · rw [hc, List.getElem?_set_self (by simp; omega)]

/-- C1 at a concrete run: one scripted handler, a call is matched and produces a
chunk, a timeout, then a failed event on the replacement listener. -/
theorem C1_listener_invariant_witness :
    (GRPCAsyncServer.HandleRpcs Scripted.handler
        [Poll.GOT_EVENT 0 true, Poll.TIMEOUT, Poll.GOT_EVENT 1 false]
        (Scripted.server [ACTIVE, FINISHED])).state.calls =
      [some ⟨0, PUSH_TO_BACK, 0⟩, some ⟨1, START_PROCESSING, 0⟩] ∧
    (GRPCAsyncServer.HandleRpcs Scripted.handler
        [Poll.GOT_EVENT 0 true, Poll.TIMEOUT, Poll.GOT_EVENT 1 false]
        (Scripted.server [ACTIVE, FINISHED])).state.armed 0 = 1 :=
  ⟨by decide, (C1_listener_invariant Scripted.handler
    [Poll.GOT_EVENT 0 true, Poll.TIMEOUT, Poll.GOT_EVENT 1 false]
    (Scripted.server [ACTIVE, FINISHED]) _ rfl rfl).1 0 (by decide)⟩

/-! ## What one `Proceed` does to a record that has been matched to a call -/

/-- A `Proceed` in `START_PROCESSING` or `CONTINUE_PROCESSING` whose
`SendResponse` returns `r`: the next state of the record, of its handler, of the
trace, of the queue and of the stores, and what it leaves untouched. -/
theorem Proceed_respond {σ : Type} (h : AsyncServiceHandler σ) (s : GRPCAsyncServer σ)
    (tag : Nat) (cd : CallData) (r : HandlerStatus)
    (hcd : s.calls[tag]? = some (some cd))
    (hst : cd.status_ = START_PROCESSING ∨ cd.status_ = CONTINUE_PROCESSING)
    (hobj : cd.async_service_handler_ < s.next_object)
    (hr : (h.SendResponse (s.objects cd.async_service_handler_)).result = Except.ok r) :
    ∃ s', CallData.Proceed h tag s = Except.ok s' ∧
      s'.calls[tag]? = some (some { cd with status_ := CallStatus.after r }) ∧
      s'.objects cd.async_service_handler_ =
        (h.SendResponse (s.objects cd.async_service_handler_)).handler ∧
      s'.trace = s.trace ++
        (if cd.status_ = START_PROCESSING then spawnEvents s cd.async_service_handler_ else []) ++
        [Event.SendResponse tag cd.async_service_handler_ (Except.ok r)] ++
        (if r = IDLE then [Event.alarm_Set tag 100] else []) ∧
      s'.calls.length = s.calls.length + (if cd.status_ = START_PROCESSING then 1 else 0) ∧
      s'.next_object = s.next_object + (if cd.status_ = START_PROCESSING then 1 else 0) ∧
      (cd.status_ = START_PROCESSING → s'.calls[s.calls.length]? =
        some (some ⟨s.next_object, START_PROCESSING, cd.origin⟩)) ∧
      (∀ t, t ≠ tag → t < s.calls.length → s'.calls[t]? = s.calls[t]?) ∧
      (∀ q, q ≠ cd.async_service_handler_ → q < s.next_object → s'.objects q = s.objects q) ∧
      s'.cq = s.cq ++ (if cd.status_ = START_PROCESSING then [s.calls.length] else []) ++
        List.replicate (h.SendResponse (s.objects cd.async_service_handler_)).tagged tag ++
        (if r = IDLE then [tag] else []) := by
  have hlt := lt_length_of_getElem? hcd
  rcases hst with hst | hst
  · have hsp := CallData.spawn_objects_of_ne h cd s _ (Nat.ne_of_lt hobj)
    have hr' : (h.SendResponse ((CallData.spawn h cd s).objects
        cd.async_service_handler_)).result = Except.ok r := by rw [hsp]; exact hr
    obtain ⟨s', hs', hc, ho, hq, ht, hn, -⟩ := CallData.respond_ok h tag cd _ hr'
    rw [hsp] at ho hq
    rw [CallData.spawn_calls] at hc
    refine ⟨s', ?_, ?_, ?_, ?_, ?_, ?_, ?_, ?_, ?_, ?_⟩
    · rw [CallData.Proceed_START hcd hst, hs']
    · rw [hc, List.getElem?_set_self (by simp; omega)]
    · rw [ho]; simp
    · rw [ht]; simp [hst]
    · rw [hc]; simp [hst]
    · rw [hn]; simp [hst]
    · intro _
      rw [hc, List.getElem?_set_ne (Nat.ne_of_lt hlt), List.getElem?_concat_length]
    · intro t ht1 ht2
      rw [hc, List.getElem?_set_ne (Ne.symm ht1), List.getElem?_append_left ht2]
    · intro q hq1 hq2
      rw [ho, Function.update_noteq hq1, CallData.spawn_objects_of_ne h cd s _ (Nat.ne_of_lt hq2)]
    · rw [hq]; simp [hst]
  · obtain ⟨s', hs', hc, ho, hq, ht, hn, -⟩ := CallData.respond_ok h tag cd s hr
    refine ⟨s', ?_, ?_, ?_, ?_, ?_, ?_, ?_, ?_, ?_, ?_⟩
    · rw [CallData.Proceed_CONTINUE hcd hst, hs']
    · rw [hc, List.getElem?_set_self hlt]
    · rw [ho]; simp
    · rw [ht]; simp [hst]
    · rw [hc]; simp [hst]
    · rw [hn]; simp [hst]
    · intro hc'; rw [hst] at hc'; cases hc'
    · intro t ht1 _
      rw [hc, List.getElem?_set_ne (Ne.symm ht1)]
    · intro q hq1 _
      rw [ho, Function.update_noteq hq1]
    · rw [hq]; simp [hst]

/-- A `Proceed` in `PUSH_TO_BACK`. -/
theorem Proceed_push {σ : Type} (h : AsyncServiceHandler σ) (s : GRPCAsyncServer σ)
    (tag : Nat) (cd : CallData)
    (hcd : s.calls[tag]? = some (some cd)) (hst : cd.status_ = PUSH_TO_BACK) :
    ∃ s', CallData.Proceed h tag s = Except.ok s' ∧
      s'.calls[tag]? = some (some { cd with status_ := CONTINUE_PROCESSING }) ∧
      s'.objects = s.objects ∧
      s'.trace = s.trace ++ [Event.alarm_Set tag 0] ∧
      s'.calls.length = s.calls.length ∧
      s'.next_object = s.next_object ∧
      (∀ t, t ≠ tag → s'.calls[t]? = s.calls[t]?) ∧
      s'.cq = s.cq ++ [tag] := by
  have hlt := lt_length_of_getElem? hcd
  refine ⟨_, CallData.Proceed_PUSH hcd hst, ?_, rfl, rfl, ?_, rfl, ?_, rfl⟩
  · simp [List.getElem?_set_self hlt]
  · simp
  · intro t ht; simp [List.getElem?_set_ne (Ne.symm ht)]

/-- A `Proceed` in `FINISH`. -/
theorem Proceed_finish {σ : Type} (h : AsyncServiceHandler σ) (s : GRPCAsyncServer σ)
    (tag : Nat) (cd : CallData)
    (hcd : s.calls[tag]? = some (some cd)) (hst : cd.status_ = FINISH) :
    ∃ s', CallData.Proceed h tag s = Except.ok s' ∧
      s'.calls[tag]? = some none ∧
      s'.objects = s.objects ∧
      s'.trace = s.trace ++ [Event.delete_CallData tag] ∧
      s'.calls.length = s.calls.length ∧
      (∀ t, t ≠ tag → s'.calls[t]? = s.calls[t]?) ∧
      s'.cq = s.cq := by
  have hlt := lt_length_of_getElem? hcd
  refine ⟨_, CallData.Proceed_FINISH hcd hst, ?_, rfl, rfl, ?_, ?_, rfl⟩
  · simp [CallData.delete, List.getElem?_set_self hlt]
  · simp [CallData.delete]
  · intro t ht; simp [CallData.delete, List.getElem?_set_ne (Ne.symm ht)]

/-! ## The life of one call -/

theorem advance_of_Proceed {σ : Type} {h : AsyncServiceHandler σ} {tag : Nat}
    {s s1 : GRPCAsyncServer σ} (k : Nat) (hp : CallData.Proceed h tag s = Except.ok s1) :
    advance h tag (k + 1) s = advance h tag k s1 := by
  simp [advance, hp]

theorem advance_add {σ : Type} {h : AsyncServiceHandler σ} {tag : Nat} (a b : Nat) :
    ∀ {s s1 : GRPCAsyncServer σ}, advance h tag a s = Except.ok s1 →
      advance h tag (a + b) s = advance h tag b s1 := by
  induction a with
  | zero => intro s s1 ha; cases ha; simp
  | succ a ih =>
    intro s s1 ha
    cases hp : CallData.Proceed h tag s with
    | error c => simp [advance, hp] at ha
    | ok s2 =>
      rw [advance_of_Proceed a hp] at ha
      rw [show a + 1 + b = (a + b) + 1 by omega, advance_of_Proceed _ hp]
      exact ih ha

/-- One result of `SendResponse` other than `FINISHED`, followed through: one
wake-up for `IDLE`, two for `ACTIVE`, after which the record waits in
`CONTINUE_PROCESSING`. -/
theorem advance_chunk {σ : Type} (h : AsyncServiceHandler σ) (s : GRPCAsyncServer σ)
    (tag : Nat) (cd : CallData) (r : HandlerStatus)
    (hcd : s.calls[tag]? = some (some cd))
    (hst : cd.status_ = START_PROCESSING ∨ cd.status_ = CONTINUE_PROCESSING)
    (hobj : cd.async_service_handler_ < s.next_object)
    (hr : (h.SendResponse (s.objects cd.async_service_handler_)).result = Except.ok r)
    (hne : r ≠ FINISHED) :
    ∃ s', advance h tag (1 + [r].count ACTIVE) s = Except.ok s' ∧
      s'.calls[tag]? = some (some { cd with status_ := CONTINUE_PROCESSING }) ∧
      s'.objects cd.async_service_handler_ =
        (h.SendResponse (s.objects cd.async_service_handler_)).handler ∧
      s'.trace = s.trace ++
        (if cd.status_ = START_PROCESSING then spawnEvents s cd.async_service_handler_ else []) ++
        chunkEvents tag cd.async_service_handler_ r ∧
      cd.async_service_handler_ < s'.next_object := by
  obtain ⟨s1, hp, hc, ho, ht, -, hn, -⟩ := Proceed_respond h s tag cd r hcd hst hobj hr
  cases r with
  | FINISHED => exact absurd rfl hne
  | IDLE =>
    refine ⟨s1, ?_, hc, ho, ?_, by omega⟩
    · simp [advance, hp]
    · rw [ht]; simp [chunkEvents]
  | ACTIVE =>
    obtain ⟨s2, hp2, hc2, ho2, ht2, -, hn2, -⟩ :=
      Proceed_push h s1 tag { cd with status_ := CallStatus.after ACTIVE } hc rfl
    refine ⟨s2, ?_, hc2, ?_, ?_, by omega⟩
    · simp [advance, hp, hp2]
    · rw [ho2]; exact ho
    · rw [ht2, ht]; simp [chunkEvents]

/-- From a record that has been matched to a call to its `FINISH` state: the
handler returns the statuses `rs`, none of them `FINISHED`, and then
`FINISHED`. -/
theorem advance_to_FINISH {σ : Type} (h : AsyncServiceHandler σ) (tag : Nat)
    (rs : List HandlerStatus) :
    ∀ (s : GRPCAsyncServer σ) (cd : CallData),
      s.calls[tag]? = some (some cd) →
      cd.status_ = START_PROCESSING ∨ cd.status_ = CONTINUE_PROCESSING →
      cd.async_service_handler_ < s.next_object →
      FINISHED ∉ rs →
      responses h (rs.length + 1) (s.objects cd.async_service_handler_) =
        rs.map Except.ok ++ [Except.ok FINISHED] →
      ∃ s', advance h tag (rs.length + rs.count ACTIVE + 1) s = Except.ok s' ∧
        s'.calls[tag]? = some (some { cd with status_ := FINISH }) ∧
        s'.trace = s.trace ++
          (if cd.status_ = START_PROCESSING then spawnEvents s cd.async_service_handler_
            else []) ++
          rs.flatMap (chunkEvents tag cd.async_service_handler_) ++
          [Event.SendResponse tag cd.async_service_handler_ (Except.ok FINISHED)] := by
  induction rs with
  | nil =>
    intro s cd hcd hst hobj _ hres
    have hr : (h.SendResponse (s.objects cd.async_service_handler_)).result =
        Except.ok FINISHED := by
      simpa [responses] using hres
    obtain ⟨s1, hp, hc, -, ht, -⟩ := Proceed_respond h s tag cd FINISHED hcd hst hobj hr
    refine ⟨s1, ?_, hc, ?_⟩
    · simp [advance, hp]
    · rw [ht]; simp
  | cons r rs ih =>
    intro s cd hcd hst hobj hfin hres
    simp only [List.length_cons, responses, List.map_cons, List.cons_append,
      List.cons.injEq] at hres
    obtain ⟨hr, hres'⟩ := hres
    have hne : r ≠ FINISHED := fun hc => hfin (by rw [hc]; simp)
    have hfin' : FINISHED ∉ rs := fun hc => hfin (List.mem_cons_of_mem _ hc)
    obtain ⟨s1, ha, hc, ho, ht, hn⟩ := advance_chunk h s tag cd r hcd hst hobj hr hne
    rw [← ho] at hres'
    obtain ⟨s2, ha2, hc2, ht2⟩ :=
      ih s1 { cd with status_ := CONTINUE_PROCESSING } hc (Or.inr rfl) hn hfin' hres'
    refine ⟨s2, ?_, hc2, ?_⟩
    · have := advance_add (1 + [r].count ACTIVE) (rs.length + rs.count ACTIVE + 1) ha
      rw [← ha2, ← this]
      congr 1
      simp [List.count_cons]
      omega
    · rw [ht2, ht]; simp

theorem sendTags_append (a b : List Event) :
    sendTags (a ++ b) = sendTags a ++ sendTags b := by
  induction a with
  | nil => simp [sendTags]
  | cons e a ih => cases e <;> simp [sendTags, ih]

theorem sendCount_append (a b : List Event) :
    sendCount (a ++ b) = sendCount a + sendCount b := by
  simp [sendCount, sendTags_append]

theorem sendCount_chunks (tag p : Nat) (rs : List HandlerStatus) :
    sendCount (rs.flatMap (chunkEvents tag p)) = rs.length := by
  induction rs with
  | nil => simp [sendCount, sendTags]
  | cons r rs ih =>
    rw [List.flatMap_cons, sendCount_append, ih]
    cases r <;> simp [chunkEvents, sendCount, sendTags] <;> omega

/-- C2, call lifecycle.  A record is constructed on the handler object `p` (the
constructor runs the first `Proceed`, which calls `ListenForRequest`) and is
then woken again and again.  If the successive results of `SendResponse` on
that handler are `rs` followed by `FINISHED`, with no `FINISHED` in `rs`, so
that `n = rs.length + 1` and `a` is the number of `ACTIVE` in `rs`, then
`n + a` further calls of `Proceed` bring the record to `FINISH`, the next one
(number `n + a + 2`, counting the constructor's) deletes it, and the calls
made are, in order: the construction and one `ListenForRequest`, the spawning
of the replacement, the `n` calls of `SendResponse` with their alarms, and the
`delete`.  After that `Proceed` cannot run on the record any more. -/
theorem C2_call_lifecycle {σ : Type} (h : AsyncServiceHandler σ) (s0 : GRPCAsyncServer σ)
    (p o : Nat) (rs : List HandlerStatus)
    (hp : p < s0.next_object) (hfin : FINISHED ∉ rs)
    (hres : responses h (rs.length + 1) (h.ListenForRequest (s0.objects p)) =
      rs.map Except.ok ++ [Except.ok FINISHED]) :
    ∃ s2 s3,
      advance h s0.calls.length (rs.length + rs.count ACTIVE + 1) (CallData.new h p o s0) =
        Except.ok s2 ∧
      s2.calls[s0.calls.length]? = some (some ⟨p, FINISH, o⟩) ∧
      CallData.Proceed h s0.calls.length s2 = Except.ok s3 ∧
      s3.calls[s0.calls.length]? = some none ∧
      s3.trace = s0.trace ++
        [Event.new_CallData s0.calls.length p, Event.ListenForRequest s0.calls.length p] ++
        spawnEvents (CallData.new h p o s0) p ++
        rs.flatMap (chunkEvents s0.calls.length p) ++
        [Event.SendResponse s0.calls.length p (Except.ok FINISHED),
          Event.delete_CallData s0.calls.length] ∧
      sendCount s3.trace = sendCount s0.trace + (rs.length + 1) ∧
      ∀ k, advance h s0.calls.length (k + 1) s3 =
        Except.error (Crash.use_after_free s0.calls.length, s3) := by
  have hcd : (CallData.new h p o s0).calls[s0.calls.length]? =
      some (some ⟨p, START_PROCESSING, o⟩) := by
    rw [CallData.new_calls, List.getElem?_concat_length]
  have hres' : responses h (rs.length + 1) ((CallData.new h p o s0).objects p) =
      rs.map Except.ok ++ [Except.ok FINISHED] := by
    rw [CallData.new_objects, Function.update_same]; exact hres
  obtain ⟨s2, ha, hc, ht⟩ := advance_to_FINISH h s0.calls.length rs (CallData.new h p o s0)
    ⟨p, START_PROCESSING, o⟩ hcd (Or.inl rfl) hp hfin hres'
  obtain ⟨s3, hp3, hc3, -, ht3, -⟩ := Proceed_finish h s2 s0.calls.length _ hc rfl
  have htr : s3.trace = s0.trace ++
      [Event.new_CallData s0.calls.length p, Event.ListenForRequest s0.calls.length p] ++
      spawnEvents (CallData.new h p o s0) p ++
      rs.flatMap (chunkEvents s0.calls.length p) ++
      [Event.SendResponse s0.calls.length p (Except.ok FINISHED),
        Event.delete_CallData s0.calls.length] := by
    rw [ht3, ht]; simp
  refine ⟨s2, s3, ha, hc, hp3, hc3, htr, ?_, ?_⟩
  · rw [htr]
    simp only [sendCount_append, sendCount_chunks]
    simp [sendCount, sendTags, spawnEvents]
    omega
  · intro k
    have hdead : CallData.Proceed h s0.calls.length s3 =
        Except.error (Crash.use_after_free s0.calls.length, s3) :=
      CallData.Proceed_dead (by intro cd; rw [hc3]; simp)
    simp [advance, hdead]

/-- C2 at the handler whose results are `ACTIVE, ACTIVE, ACTIVE, FINISHED`:
four `SendResponse` calls, no fifth, and the record is deleted by its ninth
`Proceed` (the constructor's and eight wake-ups). -/
theorem C2_call_lifecycle_witness :
    ∃ s2 s3,
      advance Scripted.handler 0 7
          (CallData.new Scripted.handler 0 0 (Scripted.server [ACTIVE, ACTIVE, ACTIVE, FINISHED])) =
        Except.ok s2 ∧
      s2.calls[0]? = some (some ⟨0, FINISH, 0⟩) ∧
      CallData.Proceed Scripted.handler 0 s2 = Except.ok s3 ∧
      s3.calls[0]? = some none ∧
      s3.trace =
        [Event.new_CallData 0 0, Event.ListenForRequest 0 0,
          Event.CreateNewHandler 0 1, Event.new_CallData 1 1, Event.ListenForRequest 1 1,
          Event.SendResponse 0 0 (Except.ok ACTIVE), Event.alarm_Set 0 0,
          Event.SendResponse 0 0 (Except.ok ACTIVE), Event.alarm_Set 0 0,
          Event.SendResponse 0 0 (Except.ok ACTIVE), Event.alarm_Set 0 0,
          Event.SendResponse 0 0 (Except.ok FINISHED), Event.delete_CallData 0] ∧
      sendCount s3.trace = 4 ∧
      ∀ k, advance Scripted.handler 0 (k + 1) s3 = Except.error (Crash.use_after_free 0, s3) :=
  C2_call_lifecycle Scripted.handler (Scripted.server [ACTIVE, ACTIVE, ACTIVE, FINISHED]) 0 0
    [ACTIVE, ACTIVE, ACTIVE] (by decide) (by decide) (by decide)

/-! ## Every branch of `Proceed` at once -/

theorem deletions_append (a b : List Event) :
    deletions (a ++ b) = deletions a ++ deletions b := by
  induction a with
  | nil => simp [deletions]
  | cons e a ih => cases e <;> simp [deletions, ih]

/-- What `respond` does whatever `SendResponse` returns or throws. -/
theorem respond_state {σ : Type} (h : AsyncServiceHandler σ) (tag : Nat) (cd : CallData)
    (s : GRPCAsyncServer σ) :
    ∃ (st : CallStatus) (woken : List Nat) (evs : List Event),
      (CallData.respond h tag cd s).state.calls =
        s.calls.set tag (some { cd with status_ := st }) ∧
      (CallData.respond h tag cd s).state.cq = s.cq ++ woken ∧
      (CallData.respond h tag cd s).state.trace = s.trace ++ evs ∧
      (CallData.respond h tag cd s).state.next_object = s.next_object ∧
      deletions evs = [] ∧ sendTags evs = [tag] ∧
      ((CallData.respond h tag cd s).crash = none ∨
        ∃ e, (CallData.respond h tag cd s).crash = some (Crash.uncaught e)) ∧
      (OneWritePerChunk h → (CallData.respond h tag cd s).crash = none → woken = [tag]) := by
  cases hr : (h.SendResponse (s.objects cd.async_service_handler_)).result with
  | error e =>
    obtain ⟨s', h1, hc, hq, ht, hn, -⟩ := CallData.respond_error h tag cd s hr
    refine ⟨PUSH_TO_BACK,
      List.replicate (h.SendResponse (s.objects cd.async_service_handler_)).tagged tag,
      [Event.SendResponse tag cd.async_service_handler_ (Except.error e)],
      ?_, ?_, ?_, ?_, ?_, ?_, Or.inr ⟨e, ?_⟩, ?_⟩
    · rw [h1]; exact hc
    · rw [h1]; exact hq
    · rw [h1]; exact ht
    · rw [h1]; exact hn
    · simp [deletions]
    · simp [sendTags]
    · rw [h1]; rfl
    · intro _ hcr; rw [h1] at hcr; cases hcr
  | ok r =>
    obtain ⟨s', h1, hc, -, hq, ht, hn, -⟩ := CallData.respond_ok h tag cd s hr
    refine ⟨CallStatus.after r,
      List.replicate (h.SendResponse (s.objects cd.async_service_handler_)).tagged tag ++
        (if r = IDLE then [tag] else []),
      Event.SendResponse tag cd.async_service_handler_ (Except.ok r) ::
        (if r = IDLE then [Event.alarm_Set tag 100] else []),
      ?_, ?_, ?_, ?_, ?_, ?_, Or.inl ?_, ?_⟩
    · rw [h1]; exact hc
    · rw [h1, List.append_assoc] at *; exact hq
    · rw [h1]; exact ht
    · rw [h1]; exact hn
    · cases r <;> simp [deletions]
    · cases r <;> simp [sendTags]
    · rw [h1]; rfl
    · intro hw _
      rw [hw _ r hr]
      cases r <;> simp

/-- What `Proceed` does to a live record, in every state and whether or not
`SendResponse` throws: the record store changes at `tag` and by at most one
appended record, the queue and the trace grow. -/
theorem Proceed_state {σ : Type} (h : AsyncServiceHandler σ) (tag : Nat) (cd : CallData)
    (s : GRPCAsyncServer σ) (hcd : s.calls[tag]? = some (some cd)) :
    ∃ (c : Option CallData) (extra : List (Option CallData)) (woken : List Nat)
      (evs : List Event),
      (CallData.Proceed h tag s).state.calls = (s.calls ++ extra).set tag c ∧
      (CallData.Proceed h tag s).state.cq = s.cq ++ woken ∧
      (CallData.Proceed h tag s).state.trace = s.trace ++ evs ∧
      (cd.status_ = FINISH → c = none) ∧
      (cd.status_ ≠ FINISH → ∃ cd', c = some cd') ∧
      (extra = [] ∨ (cd.status_ = START_PROCESSING ∧ ∃ n, extra = [some n])) ∧
      deletions evs = (if cd.status_ = FINISH then [tag] else []) ∧
      sendTags evs =
        (if cd.status_ = START_PROCESSING ∨ cd.status_ = CONTINUE_PROCESSING then [tag] else []) ∧
      ((CallData.Proceed h tag s).crash = none ∨
        ∃ e, (CallData.Proceed h tag s).crash = some (Crash.uncaught e)) ∧
      (OneWritePerChunk h → (CallData.Proceed h tag s).crash = none →
        woken = List.replicate extra.length s.calls.length ++
          (if cd.status_ = FINISH then [] else [tag])) := by
  cases hst : cd.status_ with
  | CREATE =>
    rw [CallData.Proceed_CREATE hcd hst]
    exact ⟨some { cd with status_ := START_PROCESSING }, [], [tag],
      [Event.ListenForRequest tag cd.async_service_handler_],
      by simp [Result.state, CallData.listen], by simp [Result.state, CallData.listen],
      by simp [Result.state, CallData.listen], by simp, by simp, Or.inl rfl,
      by simp [deletions], by simp [sendTags], Or.inl rfl, by simp⟩
  | START_PROCESSING =>
    rw [CallData.Proceed_START hcd hst]
    obtain ⟨st, woken, evs, hc, hq, ht, -, hd, hsc, hcr, hw⟩ :=
      respond_state h tag cd (CallData.spawn h cd s)
    refine ⟨some { cd with status_ := st },
      [some ⟨s.next_object, START_PROCESSING, cd.origin⟩], s.calls.length :: woken,
      spawnEvents s cd.async_service_handler_ ++ evs, ?_, ?_, ?_, by simp, by simp,
      Or.inr ⟨rfl, _, rfl⟩, ?_, ?_, hcr, ?_⟩
    · rw [hc, CallData.spawn_calls]
    · rw [hq, CallData.spawn_cq]; simp
    · rw [ht, CallData.spawn_trace]; simp
    · rw [deletions_append, hd]; simp [spawnEvents, deletions]
    · rw [sendTags_append, hsc]; simp [spawnEvents, sendTags]
    · intro h1 h2; rw [hw h1 h2]; simp
  | CONTINUE_PROCESSING =>
    rw [CallData.Proceed_CONTINUE hcd hst]
    obtain ⟨st, woken, evs, hc, hq, ht, -, hd, hsc, hcr, hw⟩ := respond_state h tag cd s
    refine ⟨some { cd with status_ := st }, [], woken, evs, ?_, hq, ht, by simp, by simp,
      Or.inl rfl, ?_, ?_, hcr, ?_⟩
    · rw [hc]; simp
    · rw [hd]; simp
    · rw [hsc]; simp
    · intro h1 h2; rw [hw h1 h2]; simp
  | PUSH_TO_BACK =>
    rw [CallData.Proceed_PUSH hcd hst]
    exact ⟨some { cd with status_ := CONTINUE_PROCESSING }, [], [tag], [Event.alarm_Set tag 0],
      by simp [Result.state], by simp [Result.state],
      by simp [Result.state], by simp, by simp, Or.inl rfl,
      by simp [deletions], by simp [sendTags], Or.inl rfl, by simp⟩
  | FINISH =>
    rw [CallData.Proceed_FINISH hcd hst]
    exact ⟨none, [], [], [Event.delete_CallData tag],
      by simp [Result.state, CallData.delete], by simp [Result.state, CallData.delete],
      by simp [Result.state, CallData.delete], by simp, by simp, Or.inl rfl,
      by simp [deletions], by simp [sendTags], Or.inl rfl, by simp⟩

/-- C3, result mapping.  A `Proceed` on a record in `START_PROCESSING` or in
`CONTINUE_PROCESSING`, whose `SendResponse` returns `r`, calls `SendResponse`
once and leaves the record in the state `CallStatus.after r`: `FINISH` for
`FINISHED`, `CONTINUE_PROCESSING` for `IDLE`, `PUSH_TO_BACK` for `ACTIVE`.  The
calls it makes are the `SendResponse` call, followed by one alarm 100
microseconds ahead for this record exactly when `r` is `IDLE`, and preceded by
the construction of one new record exactly when the state was
`START_PROCESSING`. -/
theorem C3_result_mapping {σ : Type} (h : AsyncServiceHandler σ) (s : GRPCAsyncServer σ)
    (tag : Nat) (cd : CallData) (r : HandlerStatus)
    (hcd : s.calls[tag]? = some (some cd))
    (hst : cd.status_ = START_PROCESSING ∨ cd.status_ = CONTINUE_PROCESSING)
    (hobj : cd.async_service_handler_ < s.next_object)
    (hr : (h.SendResponse (s.objects cd.async_service_handler_)).result = Except.ok r) :
    ∃ s', CallData.Proceed h tag s = Except.ok s' ∧
      s'.calls[tag]? = some (some { cd with status_ := CallStatus.after r }) ∧
      CallStatus.after r =
        (match r with
          | FINISHED => FINISH
          | IDLE => CONTINUE_PROCESSING
          | ACTIVE => PUSH_TO_BACK) ∧
      s'.trace = s.trace ++
        (if cd.status_ = START_PROCESSING then spawnEvents s cd.async_service_handler_ else []) ++
        [Event.SendResponse tag cd.async_service_handler_ (Except.ok r)] ++
        (if r = IDLE then [Event.alarm_Set tag 100] else []) ∧
      s'.cq = s.cq ++ (if cd.status_ = START_PROCESSING then [s.calls.length] else []) ++
        List.replicate (h.SendResponse (s.objects cd.async_service_handler_)).tagged tag ++
        (if r = IDLE then [tag] else []) ∧
      s'.calls.length = s.calls.length + (if cd.status_ = START_PROCESSING then 1 else 0) ∧
      (cd.status_ = START_PROCESSING → s'.calls[s.calls.length]? =
        some (some ⟨s.next_object, START_PROCESSING, cd.origin⟩)) := by
  obtain ⟨s', h1, h2, -, h4, h5, -, h7, -, -, h10⟩ := Proceed_respond h s tag cd r hcd hst hobj hr
  exact ⟨s', h1, h2, by cases r <;> rfl, h4, h10, h5, h7⟩

/-- C3 at a concrete record: a listener in `START_PROCESSING` whose handler
answers `IDLE`. -/
theorem C3_result_mapping_witness :
    ∃ s', CallData.Proceed Scripted.handler 0
        (CallData.new Scripted.handler 0 0 (Scripted.server [IDLE, FINISHED])) = Except.ok s' ∧
      s'.calls[0]? = some (some ⟨0, CONTINUE_PROCESSING, 0⟩) ∧
      CallStatus.after IDLE = CONTINUE_PROCESSING ∧
      s'.trace = [Event.new_CallData 0 0, Event.ListenForRequest 0 0,
        Event.CreateNewHandler 0 1, Event.new_CallData 1 1, Event.ListenForRequest 1 1,
        Event.SendResponse 0 0 (Except.ok IDLE), Event.alarm_Set 0 100] ∧
      s'.cq = [0, 1, 0] ∧
      s'.calls.length = 2 ∧
      (START_PROCESSING = START_PROCESSING →
        s'.calls[1]? = some (some ⟨1, START_PROCESSING, 0⟩)) :=
  C3_result_mapping Scripted.handler
    (CallData.new Scripted.handler 0 0 (Scripted.server [IDLE, FINISHED])) 0
    ⟨0, START_PROCESSING, 0⟩ IDLE (by decide) (by decide) (by decide) (by decide)

/-! ## Fairness -/

theorem Proceed_frame {σ : Type} {h : AsyncServiceHandler σ} {s s' : GRPCAsyncServer σ}
    {t tag : Nat} {c : Option CallData} (hp : CallData.Proceed h t s = Except.ok s')
    (hne : tag ≠ t) (hc : s.calls[tag]? = some c) : s'.calls[tag]? = some c := by
  cases hcd : s.calls[t]? with
  | none => rw [CallData.Proceed_dead (by intro cd; rw [hcd]; simp)] at hp; cases hp
  | some o =>
    cases o with
    | none => rw [CallData.Proceed_dead (by intro cd; rw [hcd]; simp)] at hp; cases hp
    | some cd =>
      obtain ⟨c', extra, -, -, hcalls, -⟩ := Proceed_state h t cd s hcd
      rw [hp] at hcalls
      simp only [Result.state] at hcalls
      rw [hcalls, List.getElem?_set_ne (Ne.symm hne),
        List.getElem?_append_left (lt_length_of_getElem? hc), hc]

theorem poll_frame {σ : Type} {h : AsyncServiceHandler σ} {s s' : GRPCAsyncServer σ}
    {e : Poll} {tag : Nat} {c : Option CallData} (hp : GRPCAsyncServer.poll h s e = Except.ok s')
    (hne : e ≠ Poll.GOT_EVENT tag true) (hc : s.calls[tag]? = some c) :
    s'.calls[tag]? = some c := by
  cases e with
  | GOT_EVENT t ok =>
    simp only [GRPCAsyncServer.poll] at hp
    split at hp
    · split at hp
      · next hok =>
        have hne' : tag ≠ t := by
          intro heq; subst heq; subst hok; exact hne rfl
        exact Proceed_frame (s := { s with cq := s.cq.erase t }) hp hne' hc
      · cases hp; exact hc
    · cases hp; exact hc
  | TIMEOUT => cases hp; exact hc
  | SHUTDOWN => cases hp; exact hc

theorem loop_frame {σ : Type} {h : AsyncServiceHandler σ} {tag : Nat} {c : Option CallData}
    (polls : List Poll) :
    ∀ {s s' : GRPCAsyncServer σ}, Poll.GOT_EVENT tag true ∉ polls →
      GRPCAsyncServer.loop h polls s = Except.ok s' →
      s.calls[tag]? = some c → s'.calls[tag]? = some c := by
  induction polls with
  | nil => intro s s' _ hl hc; cases hl; exact hc
  | cons e es ih =>
    intro s s' hn hl hc
    simp only [GRPCAsyncServer.loop] at hl
    cases hp : GRPCAsyncServer.poll h s e with
    | error c => rw [hp] at hl; cases hl
    | ok s1 =>
      rw [hp] at hl
      have hne : e ≠ Poll.GOT_EVENT tag true := fun heq => hn (by rw [heq]; simp)
      exact ih (fun hm => hn (List.mem_cons_of_mem _ hm)) hl (poll_frame hp hne hc)

theorem respond_trace {σ : Type} (h : AsyncServiceHandler σ) (tag : Nat) (cd : CallData)
    (s : GRPCAsyncServer σ) :
    (CallData.respond h tag cd s).state.trace = s.trace ++
      Event.SendResponse tag cd.async_service_handler_
          (h.SendResponse (s.objects cd.async_service_handler_)).result ::
        (if (h.SendResponse (s.objects cd.async_service_handler_)).result = Except.ok IDLE
          then [Event.alarm_Set tag 100] else []) := by
  cases hr : (h.SendResponse (s.objects cd.async_service_handler_)).result with
  | error e =>
    obtain ⟨s', h1, -, -, ht, -⟩ := CallData.respond_error h tag cd s hr
    rw [h1]; simp [Result.state, ht]
  | ok r =>
    obtain ⟨s', h1, -, -, -, ht, -⟩ := CallData.respond_ok h tag cd s hr
    rw [h1]; simp only [Result.state, ht]
    cases r <;> simp

/-- C4, fairness.  When `SendResponse` returns `ACTIVE` the record is left in
`PUSH_TO_BACK`.  It stays there whatever else the loop does until its own next
successful wake-up; that `Proceed` makes a single call, an alarm with no delay
for the same record, touches no handler object and moves the record to
`CONTINUE_PROCESSING`.  Again the record stays there until its next wake-up, and
only that `Proceed` calls `SendResponse` again. -/
theorem C4_fairness {σ : Type} (h : AsyncServiceHandler σ) (s : GRPCAsyncServer σ)
    (tag : Nat) (cd : CallData)
    (hcd : s.calls[tag]? = some (some cd))
    (hst : cd.status_ = START_PROCESSING ∨ cd.status_ = CONTINUE_PROCESSING)
    (hobj : cd.async_service_handler_ < s.next_object)
    (hr : (h.SendResponse (s.objects cd.async_service_handler_)).result = Except.ok ACTIVE) :
    ∃ s1, CallData.Proceed h tag s = Except.ok s1 ∧
      s1.calls[tag]? = some (some { cd with status_ := PUSH_TO_BACK }) ∧
      ∀ (polls : List Poll) (s2 : GRPCAsyncServer σ),
        Poll.GOT_EVENT tag true ∉ polls → GRPCAsyncServer.loop h polls s1 = Except.ok s2 →
        ∃ s3, CallData.Proceed h tag s2 = Except.ok s3 ∧
          s3.trace = s2.trace ++ [Event.alarm_Set tag 0] ∧
          s3.cq = s2.cq ++ [tag] ∧
          s3.objects = s2.objects ∧
          s3.calls[tag]? = some (some { cd with status_ := CONTINUE_PROCESSING }) ∧
          ∀ (polls' : List Poll) (s4 : GRPCAsyncServer σ),
            Poll.GOT_EVENT tag true ∉ polls' →
            GRPCAsyncServer.loop h polls' s3 = Except.ok s4 →
            (CallData.Proceed h tag s4).state.trace = s4.trace ++
              Event.SendResponse tag cd.async_service_handler_
                  (h.SendResponse (s4.objects cd.async_service_handler_)).result ::
                (if (h.SendResponse (s4.objects cd.async_service_handler_)).result =
                    Except.ok IDLE then [Event.alarm_Set tag 100] else []) := by
  obtain ⟨s1, hp1, hc1, -⟩ := Proceed_respond h s tag cd ACTIVE hcd hst hobj hr
  refine ⟨s1, hp1, hc1, ?_⟩
  intro polls s2 hn hl
  have hc2 := loop_frame polls hn hl hc1
  obtain ⟨s3, hp3, hc3, ho3, ht3, -, -, -, hq3⟩ :=
    Proceed_push h s2 tag { cd with status_ := CallStatus.after ACTIVE } hc2 rfl
  refine ⟨s3, hp3, ht3, hq3, ho3, hc3, ?_⟩
  intro polls' s4 hn' hl'
  have hc4 := loop_frame polls' hn' hl' hc3
  rw [CallData.Proceed_CONTINUE hc4 rfl]
  exact respond_trace h tag _ s4

/-- C4 at a concrete run: the handler answers `ACTIVE`; before the record is
woken again the replacement listener takes a failed event and a poll times
out. -/
theorem C4_fairness_witness :
    ∃ s1 s2 s3,
      CallData.Proceed Scripted.handler 0
        (CallData.new Scripted.handler 0 0 (Scripted.server [ACTIVE, FINISHED])) = Except.ok s1 ∧
      s1.calls[0]? = some (some ⟨0, PUSH_TO_BACK, 0⟩) ∧
      GRPCAsyncServer.loop Scripted.handler [Poll.GOT_EVENT 1 false, Poll.TIMEOUT] s1 =
        Except.ok s2 ∧
      CallData.Proceed Scripted.handler 0 s2 = Except.ok s3 ∧
      s3.trace = s2.trace ++ [Event.alarm_Set 0 0] ∧
      s3.calls[0]? = some (some ⟨0, CONTINUE_PROCESSING, 0⟩) ∧
      (CallData.Proceed Scripted.handler 0 s3).state.trace =
        s3.trace ++ [Event.SendResponse 0 0 (Except.ok FINISHED)] := by
  obtain ⟨s1, h1, h2, h3⟩ := C4_fairness Scripted.handler
    (CallData.new Scripted.handler 0 0 (Scripted.server [ACTIVE, FINISHED])) 0
    ⟨0, START_PROCESSING, 0⟩ (by decide) (by decide) (by decide) (by decide)
  have hs1 : s1 = (CallData.Proceed Scripted.handler 0
      (CallData.new Scripted.handler 0 0 (Scripted.server [ACTIVE, FINISHED]))).state := by
    rw [h1]; rfl
  have hl : GRPCAsyncServer.loop Scripted.handler [Poll.GOT_EVENT 1 false, Poll.TIMEOUT] s1 =
      Except.ok (GRPCAsyncServer.loop Scripted.handler
        [Poll.GOT_EVENT 1 false, Poll.TIMEOUT] s1).state := by
    rw [hs1]; rfl
  obtain ⟨s3, h4, h5, -, -, h6, h7⟩ := h3 _ _ (by decide) hl
  have hs3 : s3 = (CallData.Proceed Scripted.handler 0 (GRPCAsyncServer.loop Scripted.handler
      [Poll.GOT_EVENT 1 false, Poll.TIMEOUT] s1).state).state := by
    rw [h4]; rfl
  refine ⟨s1, _, s3, h1, h2, hl, h4, h5, h6, ?_⟩
  have h8 := h7 [] s3 (by decide) rfl
  rw [h8]
  rw [hs3, hs1]
  rfl

/-! ## No busy loop -/

theorem Proceed_sendTags {σ : Type} {h : AsyncServiceHandler σ} {s s' : GRPCAsyncServer σ}
    {t tag : Nat} (hp : CallData.Proceed h t s = Except.ok s') (hne : tag ≠ t) :
    (sendTags s'.trace).count tag = (sendTags s.trace).count tag := by
  cases hcd : s.calls[t]? with
  | none => rw [CallData.Proceed_dead (by intro cd; rw [hcd]; simp)] at hp; cases hp
  | some o =>
    cases o with
    | none => rw [CallData.Proceed_dead (by intro cd; rw [hcd]; simp)] at hp; cases hp
    | some cd =>
      obtain ⟨-, -, -, evs, -, -, htr, -, -, -, -, hsd, -⟩ := Proceed_state h t cd s hcd
      rw [hp] at htr
      simp only [Result.state] at htr
      rw [htr, sendTags_append, List.count_append, hsd]
      split <;> simp [List.count_cons, hne.symm]

theorem poll_sendTags {σ : Type} {h : AsyncServiceHandler σ} {s s' : GRPCAsyncServer σ}
    {e : Poll} {tag : Nat} (hp : GRPCAsyncServer.poll h s e = Except.ok s')
    (hne : e ≠ Poll.GOT_EVENT tag true) :
    (sendTags s'.trace).count tag = (sendTags s.trace).count tag := by
  cases e with
  | GOT_EVENT t ok =>
    simp only [GRPCAsyncServer.poll] at hp
    split at hp
    · split at hp
      · next hok =>
        have hne' : tag ≠ t := by
          intro heq; subst heq; subst hok; exact hne rfl
        exact Proceed_sendTags (s := { s with cq := s.cq.erase t }) hp hne'
      · cases hp; rfl
    · cases hp; rfl
  | TIMEOUT => cases hp; rfl
  | SHUTDOWN => cases hp; rfl

theorem loop_sendTags {σ : Type} {h : AsyncServiceHandler σ} {tag : Nat} (polls : List Poll) :
    ∀ {s s' : GRPCAsyncServer σ}, Poll.GOT_EVENT tag true ∉ polls →
      GRPCAsyncServer.loop h polls s = Except.ok s' →
      (sendTags s'.trace).count tag = (sendTags s.trace).count tag := by
  induction polls with
  | nil => intro s s' _ hl; cases hl; rfl
  | cons e es ih =>
    intro s s' hn hl
    simp only [GRPCAsyncServer.loop] at hl
    cases hp : GRPCAsyncServer.poll h s e with
    | error c => rw [hp] at hl; cases hl
    | ok s1 =>
      rw [hp] at hl
      have hne : e ≠ Poll.GOT_EVENT tag true := fun heq => hn (by rw [heq]; simp)
      rw [ih (fun hm => hn (List.mem_cons_of_mem _ hm)) hl, poll_sendTags hp hne]

/-- C8, no busy loop.  One `Proceed` calls `SendResponse` at most once, and not
at all when the record is in `CREATE`, `PUSH_TO_BACK` or `FINISH`.  When the
call returns `IDLE`, `Proceed` sets exactly one alarm, 100 microseconds ahead
and tagged with the same record, leaves the record in `CONTINUE_PROCESSING` and
returns; whatever the loop does afterwards, `SendResponse` is not called for
this record again before a successful event with its tag is taken from the
queue. -/
theorem C8_no_busy_loop {σ : Type} (h : AsyncServiceHandler σ) (s : GRPCAsyncServer σ)
    (tag : Nat) (cd : CallData) (hcd : s.calls[tag]? = some (some cd)) :
    (∃ evs, (CallData.Proceed h tag s).state.trace = s.trace ++ evs ∧ sendCount evs ≤ 1 ∧
      (cd.status_ = CREATE ∨ cd.status_ = PUSH_TO_BACK ∨ cd.status_ = FINISH →
        sendCount evs = 0)) ∧
    (cd.status_ = START_PROCESSING ∨ cd.status_ = CONTINUE_PROCESSING →
      cd.async_service_handler_ < s.next_object →
      (h.SendResponse (s.objects cd.async_service_handler_)).result = Except.ok IDLE →
      ∃ s', CallData.Proceed h tag s = Except.ok s' ∧
        s'.trace = s.trace ++
          (if cd.status_ = START_PROCESSING then spawnEvents s cd.async_service_handler_
            else []) ++
          [Event.SendResponse tag cd.async_service_handler_ (Except.ok IDLE),
            Event.alarm_Set tag 100] ∧
        s'.cq = s.cq ++ (if cd.status_ = START_PROCESSING then [s.calls.length] else []) ++
          List.replicate (h.SendResponse (s.objects cd.async_service_handler_)).tagged tag ++
          [tag] ∧
        s'.calls[tag]? = some (some { cd with status_ := CONTINUE_PROCESSING }) ∧
        ∀ (polls : List Poll) (s2 : GRPCAsyncServer σ),
          Poll.GOT_EVENT tag true ∉ polls → GRPCAsyncServer.loop h polls s' = Except.ok s2 →
          s2.calls[tag]? = some (some { cd with status_ := CONTINUE_PROCESSING }) ∧
          (sendTags s2.trace).count tag = (sendTags s'.trace).count tag) := by
  constructor
  · obtain ⟨-, -, -, evs, -, -, htr, -, -, -, -, hsd, -⟩ := Proceed_state h tag cd s hcd
    refine ⟨evs, htr, ?_, ?_⟩
    · rw [sendCount, hsd]; split <;> simp
    · intro hst
      rw [sendCount, hsd]
      rcases hst with hst | hst | hst <;> simp [hst]
  · intro hst hobj hr
    obtain ⟨s', h1, h2, -, h4, -, -, -, -, -, h10⟩ :=
      Proceed_respond h s tag cd IDLE hcd hst hobj hr
    refine ⟨s', h1, ?_, ?_, h2, ?_⟩
    · rw [h4]; simp
    · rw [h10]; simp
    · intro polls s2 hn hl
      exact ⟨loop_frame polls hn hl h2, loop_sendTags polls hn hl⟩

/-- C8 at a concrete record: a listener whose handler answers `IDLE`. -/
theorem C8_no_busy_loop_witness :
    ∃ s', CallData.Proceed Scripted.handler 0
        (CallData.new Scripted.handler 0 0 (Scripted.server [IDLE, FINISHED])) = Except.ok s' ∧
      s'.trace = [Event.new_CallData 0 0, Event.ListenForRequest 0 0,
        Event.CreateNewHandler 0 1, Event.new_CallData 1 1, Event.ListenForRequest 1 1,
        Event.SendResponse 0 0 (Except.ok IDLE), Event.alarm_Set 0 100] ∧
      s'.cq = [0, 1, 0] ∧
      s'.calls[0]? = some (some ⟨0, CONTINUE_PROCESSING, 0⟩) :=
  match (C8_no_busy_loop Scripted.handler
      (CallData.new Scripted.handler 0 0 (Scripted.server [IDLE, FINISHED])) 0
      ⟨0, START_PROCESSING, 0⟩ (by decide)).2 (by decide) (by decide) (by decide) with
  | ⟨s', h1, h2, h3, h4, _⟩ => ⟨s', h1, h2, h3, h4⟩

/-! ## Startup -/

theorem seed_calls {σ : Type} (h : AsyncServiceHandler σ) (ps : List Nat) :
    ∀ (i : Nat) (s : GRPCAsyncServer σ),
      (GRPCAsyncServer.seed h ps i s).calls = s.calls ++
        (ps.enumFrom i).map (fun ip => some ⟨ip.2, START_PROCESSING, ip.1⟩) := by
  induction ps with
  | nil => intro i s; simp [GRPCAsyncServer.seed]
  | cons p ps ih =>
    intro i s
    simp [GRPCAsyncServer.seed, ih, List.enumFrom]

theorem seed_trace {σ : Type} (h : AsyncServiceHandler σ) (ps : List Nat) :
    ∀ (i : Nat) (s : GRPCAsyncServer σ),
      (GRPCAsyncServer.seed h ps i s).trace = s.trace ++ seedEvents s.calls.length ps := by
  induction ps with
  | nil => intro i s; simp [GRPCAsyncServer.seed, seedEvents]
  | cons p ps ih =>
    intro i s
    simp [GRPCAsyncServer.seed, ih, seedEvents]

theorem register_fold {σ : Type} (services : List Nat) :
    ∀ (s : GRPCAsyncServer σ),
      (services.foldl (fun t service => GRPCAsyncServer.log (Event.RegisterService service) t)
        s) = { s with trace := s.trace ++ services.map Event.RegisterService } := by
  induction services with
  | nil => intro s; simp
  | cons a l ih =>
    intro s
    rw [List.foldl_cons, ih]
    simp [GRPCAsyncServer.log]

/-- C9, startup precondition.  `Run` on a dispatcher with no handler stops at
its assertion: the only call made is `AddListeningPort` on the builder, so no
service has been registered, no completion queue created, no server built, no
record created and the loop not entered.  With at least one handler the
assertion passes: the services are registered, the queue is created, the server
is built and started, `HandleRpcs` creates one record per handler, in the order
of `handlers_`, each left in `START_PROCESSING`, and the loop starts from that
state. -/
theorem C9_startup_precondition {σ : Type} (h : AsyncServiceHandler σ) (polls : List Poll)
    (s : GRPCAsyncServer σ) :
    (s.handlers_ = [] →
      GRPCAsyncServer.Run h polls s = Except.error (Crash.assertion_failed,
        { s with trace := s.trace ++
          [Event.AddListeningPort ("0.0.0.0:" ++ toString s.port_)] })) ∧
    (s.handlers_ ≠ [] →
      ∃ s', GRPCAsyncServer.Run h [] s = Except.ok s' ∧
        GRPCAsyncServer.Run h polls s = GRPCAsyncServer.loop h polls s' ∧
        s'.calls = s.calls ++
          s.handlers_.enum.map (fun ip => some ⟨ip.2, START_PROCESSING, ip.1⟩) ∧
        s'.calls.length = s.calls.length + s.handlers_.length ∧
        s'.trace = s.trace ++
          [Event.AddListeningPort ("0.0.0.0:" ++ toString s.port_)] ++
          s.services_.map Event.RegisterService ++
          [Event.AddCompletionQueue, Event.BuildAndStart] ++
          seedEvents s.calls.length s.handlers_) := by
  constructor
  · intro he
    simp [GRPCAsyncServer.Run, GRPCAsyncServer.log, he]
  · intro hne
    have hne' : s.handlers_.isEmpty = false := by
      cases hh : s.handlers_ with
      | nil => exact absurd hh hne
      | cons a l => rfl
    refine ⟨GRPCAsyncServer.seed h s.handlers_ 0
      { s with
        cq := []
        trace := s.trace ++ [Event.AddListeningPort ("0.0.0.0:" ++ toString s.port_)] ++
          s.services_.map Event.RegisterService ++
          [Event.AddCompletionQueue, Event.BuildAndStart] }, ?_, ?_, ?_, ?_, ?_⟩
    · simp only [GRPCAsyncServer.Run, register_fold]
      simp [GRPCAsyncServer.HandleRpcs, GRPCAsyncServer.log, hne', GRPCAsyncServer.loop]
    · simp only [GRPCAsyncServer.Run, register_fold]
      simp [GRPCAsyncServer.HandleRpcs, GRPCAsyncServer.log, hne']
    · rw [seed_calls]; rfl
    · rw [seed_calls]; simp [List.enumFrom_length]
    · rw [seed_trace]

/-- C9 at concrete dispatchers: one with no handler, and one with a single
scripted handler and the service 0. -/
theorem C9_startup_precondition_witness :
    (GRPCAsyncServer.Run Scripted.handler [Poll.TIMEOUT]
        (GRPCAsyncServer.create 9314 [0] [] (fun _ => ⟨[], []⟩) 0)).crash =
      some Crash.assertion_failed ∧
    (GRPCAsyncServer.Run Scripted.handler [Poll.TIMEOUT]
        (GRPCAsyncServer.create 9314 [0] [] (fun _ => ⟨[], []⟩) 0)).state.trace =
      [Event.AddListeningPort "0.0.0.0:9314"] ∧
    ∃ s', GRPCAsyncServer.Run Scripted.handler [] (Scripted.server [FINISHED]) = Except.ok s' ∧
      s'.calls = [some ⟨0, START_PROCESSING, 0⟩] ∧
      s'.trace = [Event.AddListeningPort "0.0.0.0:9314", Event.RegisterService 0,
        Event.AddCompletionQueue, Event.BuildAndStart, Event.new_CallData 0 0,
        Event.ListenForRequest 0 0] :=
  ⟨by rw [(C9_startup_precondition Scripted.handler [Poll.TIMEOUT]
      (GRPCAsyncServer.create 9314 [0] [] (fun _ => ⟨[], []⟩) 0)).1 rfl]; rfl,
    by rw [(C9_startup_precondition Scripted.handler [Poll.TIMEOUT]
      (GRPCAsyncServer.create 9314 [0] [] (fun _ => ⟨[], []⟩) 0)).1 rfl]; decide,
    match (C9_startup_precondition Scripted.handler [] (Scripted.server [FINISHED])).2
      (by decide) with
    | ⟨s', h1, _, h3, _, h5⟩ => ⟨s', h1, h3, by rw [h5]; decide⟩⟩

/-! ## The sequence of the example handler -/

namespace AsyncStreamHandler

/-- The call that brings the counter down to `n`, with no exception. -/
theorem SendResponse_countdown (req : String) (resp : Bool) (n : Nat) :
    SendResponse none (withCounter req resp (n + 1)) =
      { handler := withCounter req resp n
        writes :=
          if n = 0 then [WriterCall.WriteAndFinish (chunk req n)]
          else if n % 2 = 1 then [WriterCall.Write (chunk req n)]
          else []
        status := if n = 0 then FINISHED else if n % 2 = 1 then ACTIVE else IDLE } := by
  have htm : Int.tmod (n : Int) 2 = ((n % 2 : Nat) : Int) := by
    rw [Int.tmod_eq_emod (by omega) (by omega)]; omega
  by_cases h0 : n = 0
  · subst h0; simp [SendResponse, withCounter, chunk, response_text]
  · have h0' : (n : Int) ≠ 0 := by omega
    by_cases h1 : n % 2 = 1
    · simp [SendResponse, withCounter, chunk, response_text, h0, h0', htm, h1]
    · have h2 : n % 2 = 0 := by omega
      simp [SendResponse, withCounter, chunk, response_text, h0, h0', htm, h2]

theorem sends_succ (req : String) (resp : Bool) (n : Nat) :
    sends (n + 1) (withCounter req resp (n + 1)) =
      SendResponse none (withCounter req resp (n + 1)) :: sends n (withCounter req resp n) := by
  rw [sends, SendResponse_countdown]

theorem sends_getElem? (req : String) (resp : Bool) :
    ∀ (c i : Nat), i < c →
      (sends c (withCounter req resp c))[i]? =
        some (SendResponse none (withCounter req resp (c - 1 - i + 1))) := by
  intro c
  induction c with
  | zero => intro i hi; omega
  | succ c ih =>
    intro i hi
    rw [sends_succ]
    cases i with
    | zero => simp
    | succ i =>
      rw [List.getElem?_cons_succ, ih i (by omega)]
      have : c - 1 - i + 1 = c + 1 - 1 - (i + 1) + 1 := by omega
      rw [this]

theorem sends_two (req : String) (resp : Bool) (c : Nat) :
    sends (c + 2) (withCounter req resp (c + 2)) =
      SendResponse none (withCounter req resp (c + 2)) ::
        SendResponse none (withCounter req resp (c + 1)) :: sends c (withCounter req resp c) := by
  rw [sends_succ req resp (c + 1), sends_succ req resp c]

theorem writes_even (req : String) (resp : Bool) :
    ∀ m : Nat, ((sends (2 * (m + 1)) (withCounter req resp (2 * (m + 1)))).flatMap
        (fun o => o.writes)) =
      (List.range (m + 1)).map (fun j => WriterCall.Write (chunk req (2 * (m + 1) - 1 - 2 * j))) ++
        [WriterCall.WriteAndFinish (chunk req 0)] := by
  intro m
  induction m with
  | zero =>
    rw [show 2 * (0 + 1) = 0 + 2 by rfl, sends_two, SendResponse_countdown,
      SendResponse_countdown]
    simp [sends, List.range_succ_eq_map]
  | succ m ih =>
    have hf : ((fun j => WriterCall.Write (chunk req (2 * (m + 1 + 1) - 1 - 2 * j))) ∘ Nat.succ) =
        (fun j => WriterCall.Write (chunk req (2 * (m + 1) - 1 - 2 * j))) := by
      funext j
      simp only [Function.comp]
      have : 2 * (m + 1 + 1) - 1 - 2 * j.succ = 2 * (m + 1) - 1 - 2 * j := by omega
      rw [this]
    rw [List.range_succ_eq_map (m + 1), List.map_cons, List.map_map, hf, List.cons_append, ← ih]
    rw [show 2 * (m + 1 + 1) = 2 * (m + 1) + 2 by omega, sends_two, SendResponse_countdown,
      SendResponse_countdown, List.flatMap_cons, List.flatMap_cons]
    have h1 : (2 * (m + 1) + 1) % 2 = 1 := by omega
    have h2 : (2 * (m + 1)) % 2 = 0 := by omega
    have h3 : ¬ (2 * (m + 1) = 0) := by omega
    have h4 : ¬ (2 * (m + 1) + 1 = 0) := by omega
    simp only [h1, h2, h3, h4, if_true, if_false]
    simp

theorem statuses_even (req : String) (resp : Bool) :
    ∀ m : Nat,
      ((sends (2 * (m + 1)) (withCounter req resp (2 * (m + 1)))).map
          (fun o => o.status)).count IDLE = m ∧
      ((sends (2 * (m + 1)) (withCounter req resp (2 * (m + 1)))).map
          (fun o => o.status)).count ACTIVE = m + 1 ∧
      ((sends (2 * (m + 1)) (withCounter req resp (2 * (m + 1)))).map
          (fun o => o.status)).count FINISHED = 1 := by
  intro m
  induction m with
  | zero =>
    rw [show 2 * (0 + 1) = 0 + 2 by rfl, sends_two, SendResponse_countdown,
      SendResponse_countdown]
    simp [sends]
  | succ m ih =>
    rw [show 2 * (m + 1 + 1) = 2 * (m + 1) + 2 by omega, sends_two, SendResponse_countdown,
      SendResponse_countdown, List.map_cons, List.map_cons]
    have h1 : (2 * (m + 1) + 1) % 2 = 1 := by omega
    have h2 : (2 * (m + 1)) % 2 = 0 := by omega
    have h3 : ¬ (2 * (m + 1) = 0) := by omega
    have h4 : ¬ (2 * (m + 1) + 1 = 0) := by omega
    obtain ⟨i1, i2, i3⟩ := ih
    simp only [h1, h2, h3, h4, if_true, if_false]
    refine ⟨?_, ?_, ?_⟩
    · rw [List.count_cons, List.count_cons, i1]; simp
    · rw [List.count_cons, List.count_cons, i2]; simp
    · rw [List.count_cons, List.count_cons, i3]; simp

end AsyncStreamHandler

/-- C10, example handler sequence.  A newly constructed `AsyncStreamHandler`, and
the one `CreateNewHandler` returns whatever the state `x` of the handler it is
called on, have their counter at 2000, and once `ListenForRequest` has been
called on them their writer is bound and the counter is still 2000.  For every
handler `x0` whose counter is 2000 and whose writer is bound, and with no
exception raised, no call dereferences a null writer and the `k`-th call of
`SendResponse` (`1 ≤ k ≤ 2000`) returns `FINISHED` exactly when `k = 2000`,
`ACTIVE` exactly when `2000 - k` is odd and `IDLE` exactly when `2000 - k` is
even and not zero.  Over the 2000 calls the writer receives 1000 `Write` chunks
numbered 1999, 1997, ..., 1 and then one `WriteAndFinish` chunk numbered 0, and
the statuses are 999 times `IDLE`, 1000 times `ACTIVE` and once `FINISHED`. -/
theorem C10_example_sequence (x x0 : AsyncStreamHandler)
    (hx0 : x0.num_responses_remaining_ = 2000) (hbound : x0.responder_ = true) :
    (AsyncStreamHandler.construct.num_responses_remaining_ = 2000 ∧
      (GenericAsyncHandler.CreateNewHandler x).num_responses_remaining_ = 2000 ∧
      (GenericAsyncHandler.ListenForRequest
        AsyncStreamHandler.construct).num_responses_remaining_ = 2000 ∧
      (GenericAsyncHandler.ListenForRequest AsyncStreamHandler.construct).responder_ = true ∧
      (GenericAsyncHandler.ListenForRequest
        (GenericAsyncHandler.CreateNewHandler x)).num_responses_remaining_ = 2000 ∧
      (GenericAsyncHandler.ListenForRequest
        (GenericAsyncHandler.CreateNewHandler x)).responder_ = true) ∧
    (∀ k, 1 ≤ k → k ≤ 2000 →
      ∃ o, (AsyncStreamHandler.sends 2000 x0)[k - 1]? = some o ∧
        o.handler.responder_ = true ∧
        AsyncStreamHandler.dereferences_null_writer none
          { o.handler with
            num_responses_remaining_ := o.handler.num_responses_remaining_ + 1 } = false ∧
        (o.status = FINISHED ↔ k = 2000) ∧
        (o.status = ACTIVE ↔ (2000 - k) % 2 = 1) ∧
        (o.status = IDLE ↔ ((2000 - k) % 2 = 0 ∧ k ≠ 2000))) ∧
    (AsyncStreamHandler.sends 2000 x0).flatMap (fun o => o.writes) =
      (List.range 1000).map (fun j =>
          WriterCall.Write (AsyncStreamHandler.chunk x0.request_ (1999 - 2 * j))) ++
        [WriterCall.WriteAndFinish (AsyncStreamHandler.chunk x0.request_ 0)] ∧
    ((AsyncStreamHandler.sends 2000 x0).map (fun o => o.status)).count IDLE = 999 ∧
    ((AsyncStreamHandler.sends 2000 x0).map (fun o => o.status)).count ACTIVE = 1000 ∧
    ((AsyncStreamHandler.sends 2000 x0).map (fun o => o.status)).count FINISHED = 1 := by
  have hx : x0 = AsyncStreamHandler.withCounter x0.request_ x0.responder_ 2000 := by
    cases x0
    simp only [AsyncStreamHandler.withCounter] at *
    rw [hx0]; rfl
  refine ⟨⟨rfl, rfl, rfl, rfl, rfl, rfl⟩, ?_, ?_, ?_⟩
  · intro k h1 h2
    rw [hx, AsyncStreamHandler.sends_getElem? _ _ 2000 (k - 1) (by omega),
      AsyncStreamHandler.SendResponse_countdown]
    refine ⟨_, rfl, ?_, ?_, ?_, ?_, ?_⟩
    · simp [AsyncStreamHandler.withCounter, hbound]
    · simp [AsyncStreamHandler.dereferences_null_writer, AsyncStreamHandler.withCounter, hbound]
    · by_cases h0 : 2000 - 1 - (k - 1) = 0
      · simp [h0]; omega
      · by_cases h3 : (2000 - 1 - (k - 1)) % 2 = 1
        · simp [h0, h3]; omega
        · simp [h0, h3]; omega
    · by_cases h0 : 2000 - 1 - (k - 1) = 0
      · simp [h0]; omega
      · by_cases h3 : (2000 - 1 - (k - 1)) % 2 = 1
        · simp [h0, h3]; omega
        · simp [h0, h3]; omega
    · by_cases h0 : 2000 - 1 - (k - 1) = 0
      · simp [h0]; omega
      · by_cases h3 : (2000 - 1 - (k - 1)) % 2 = 1
        · simp [h0, h3]; omega
        · simp [h0, h3]; omega
  · have := AsyncStreamHandler.writes_even x0.request_ x0.responder_ 999
    rw [hx]
    exact this
  · have := AsyncStreamHandler.statuses_even x0.request_ x0.responder_ 999
    rw [hx]
    exact this

/-- C10 at a handler that serves a call: a newly constructed handler on which
`ListenForRequest` has bound the writer. -/
theorem C10_example_sequence_witness :
    (∀ k, 1 ≤ k → k ≤ 2000 →
      ∃ o, (AsyncStreamHandler.sends 2000
          (GenericAsyncHandler.ListenForRequest AsyncStreamHandler.construct))[k - 1]? = some o ∧
        o.handler.responder_ = true ∧
        AsyncStreamHandler.dereferences_null_writer none
          { o.handler with
            num_responses_remaining_ := o.handler.num_responses_remaining_ + 1 } = false ∧
        (o.status = FINISHED ↔ k = 2000) ∧
        (o.status = ACTIVE ↔ (2000 - k) % 2 = 1) ∧
        (o.status = IDLE ↔ ((2000 - k) % 2 = 0 ∧ k ≠ 2000))) ∧
    ((AsyncStreamHandler.sends 2000
      (GenericAsyncHandler.ListenForRequest AsyncStreamHandler.construct)).map
        (fun o => o.status)).count IDLE = 999 :=
  ⟨(C10_example_sequence AsyncStreamHandler.construct
      (GenericAsyncHandler.ListenForRequest AsyncStreamHandler.construct) rfl rfl).2.1,
    (C10_example_sequence AsyncStreamHandler.construct
      (GenericAsyncHandler.ListenForRequest AsyncStreamHandler.construct) rfl rfl).2.2.2.1⟩

/-! ## Records are deleted once -/

theorem Proceed_inv {σ : Type} {h : AsyncServiceHandler σ} (hw : OneWritePerChunk h)
    {s : GRPCAsyncServer σ} {tag : Nat} {cd : CallData}
    (hcd : s.calls[tag]? = some (some cd)) (htag : tag ∉ s.cq)
    (hq : QueueOK s) (hd : DeletedOK s) :
    DeletedOK (CallData.Proceed h tag s).state ∧
    ((CallData.Proceed h tag s).crash = none → QueueOK (CallData.Proceed h tag s).state) ∧
    ((CallData.Proceed h tag s).crash = none ∨
      ∃ e, (CallData.Proceed h tag s).crash = some (Crash.uncaught e)) := by
  obtain ⟨c, extra, woken, evs, hcalls, hcq, htr, hfin, hnfin, hextra, hdel, -, hcrash, hwoken⟩ :=
    Proceed_state h tag cd s hcd
  have hlt := lt_length_of_getElem? hcd
  have hother : ∀ t, t ≠ tag → t < s.calls.length →
      (CallData.Proceed h tag s).state.calls[t]? = s.calls[t]? := by
    intro t h1 h2
    rw [hcalls, List.getElem?_set_ne (Ne.symm h1), List.getElem?_append_left h2]
  have hself : (CallData.Proceed h tag s).state.calls[tag]? = some c := by
    rw [hcalls, List.getElem?_set_self (by rw [List.length_append]; omega)]
  refine ⟨?_, ?_, hcrash⟩
  · have hnotdel : tag ∉ deletions s.trace := by
      intro hm; have := hd.2 tag hm; rw [hcd] at this; cases this
    constructor
    · rw [htr, deletions_append, hdel]
      split
      · exact List.nodup_append.mpr ⟨hd.1, by simp, by
          intro a ha hb; simp at hb; subst hb; exact hnotdel ha⟩
      · simpa using hd.1
    · intro t ht
      rw [htr, deletions_append, hdel] at ht
      rcases List.mem_append.mp ht with ht | ht
      · have h1 := hd.2 t ht
        have h2 : t ≠ tag := fun he => hnotdel (he ▸ ht)
        rw [hother t h2 (lt_length_of_getElem? h1), h1]
      · split at ht
        · next hf =>
          simp at ht; subst ht
          rw [hself, hfin hf]
        · cases ht
  · intro hnone
    have hwk := hwoken hw hnone
    have hlen : s.calls.length ∉ s.cq := by
      intro hm
      obtain ⟨cd', hcd'⟩ := hq.2 _ hm
      exact absurd (lt_length_of_getElem? hcd') (Nat.lt_irrefl _)
    have hex : extra.length ≤ 1 := by
      rcases hextra with he | ⟨-, n, he⟩ <;> simp [he]
    constructor
    · rw [hcq, hwk]
      refine List.nodup_append.mpr ⟨hq.1, ?_, ?_⟩
      · refine List.nodup_append.mpr ⟨?_, ?_, ?_⟩
        · rcases hextra with he | ⟨-, n, he⟩ <;> simp [he]
        · split <;> simp
        · intro a ha hb
          have ha' := List.eq_of_mem_replicate ha
          split at hb
          · cases hb
          · simp at hb; omega
      · intro a ha hb
        rcases List.mem_append.mp hb with hb | hb
        · rw [List.eq_of_mem_replicate hb] at ha; exact hlen ha
        · split at hb
          · cases hb
          · simp at hb; subst hb; exact htag ha
    · intro t ht
      rw [hcq, hwk] at ht
      rcases List.mem_append.mp ht with ht | ht
      · obtain ⟨cd', hcd'⟩ := hq.2 t ht
        have h2 : t ≠ tag := fun he => htag (he ▸ ht)
        exact ⟨cd', by rw [hother t h2 (lt_length_of_getElem? hcd'), hcd']⟩
      · rcases List.mem_append.mp ht with ht | ht
        · have ht' := List.eq_of_mem_replicate ht
          rcases hextra with he | ⟨-, n, he⟩
          · rw [he] at ht; simp at ht
          · refine ⟨n, ?_⟩
            rw [ht', hcalls, he, List.getElem?_set_ne (Nat.ne_of_lt hlt),
              List.getElem?_concat_length]
        · split at ht
          · cases ht
          · next hf =>
            simp at ht; subst ht
            obtain ⟨cd', hc'⟩ := hnfin hf
            exact ⟨cd', by rw [hself, hc']⟩

theorem poll_inv {σ : Type} {h : AsyncServiceHandler σ} (hw : OneWritePerChunk h)
    {s : GRPCAsyncServer σ} (e : Poll) (hq : QueueOK s) (hd : DeletedOK s) :
    DeletedOK (GRPCAsyncServer.poll h s e).state ∧
    ((GRPCAsyncServer.poll h s e).crash = none → QueueOK (GRPCAsyncServer.poll h s e).state) ∧
    ((GRPCAsyncServer.poll h s e).crash = none ∨
      ∃ f, (GRPCAsyncServer.poll h s e).crash = some (Crash.uncaught f)) := by
  cases e with
  | GOT_EVENT tag ok =>
    simp only [GRPCAsyncServer.poll]
    split
    · next hmem =>
      obtain ⟨cd, hcd⟩ := hq.2 tag hmem
      have hq1 : QueueOK { s with cq := s.cq.erase tag } :=
        ⟨hq.1.erase tag, fun t ht => hq.2 t (List.mem_of_mem_erase ht)⟩
      have htag : tag ∉ ({ s with cq := s.cq.erase tag } : GRPCAsyncServer σ).cq :=
        fun hm => (List.Nodup.mem_erase_iff hq.1).mp hm |>.1 rfl
      split
      · exact Proceed_inv hw (s := { s with cq := s.cq.erase tag }) hcd htag hq1 hd
      · exact ⟨hd, fun _ => hq1, Or.inl rfl⟩
    · exact ⟨hd, fun _ => hq, Or.inl rfl⟩
  | TIMEOUT => exact ⟨hd, fun _ => hq, Or.inl rfl⟩
  | SHUTDOWN => exact ⟨hd, fun _ => hq, Or.inl rfl⟩

theorem loop_inv {σ : Type} {h : AsyncServiceHandler σ} (hw : OneWritePerChunk h)
    (polls : List Poll) :
    ∀ {s : GRPCAsyncServer σ}, QueueOK s → DeletedOK s →
      DeletedOK (GRPCAsyncServer.loop h polls s).state ∧
      ((GRPCAsyncServer.loop h polls s).crash = none →
        QueueOK (GRPCAsyncServer.loop h polls s).state) ∧
      ((GRPCAsyncServer.loop h polls s).crash = none ∨
        ∃ f, (GRPCAsyncServer.loop h polls s).crash = some (Crash.uncaught f)) := by
  induction polls with
  | nil => intro s hq hd; exact ⟨hd, fun _ => hq, Or.inl rfl⟩
  | cons e es ih =>
    intro s hq hd
    obtain ⟨h1, h2, h3⟩ := poll_inv hw e hq hd
    simp only [GRPCAsyncServer.loop]
    cases hp : GRPCAsyncServer.poll h s e with
    | error c =>
      rw [hp] at h1 h3
      refine ⟨h1, ?_, ?_⟩
      · intro hc; cases hc
      · rcases h3 with h3 | h3
        · cases h3
        · exact Or.inr h3
    | ok s1 =>
      rw [hp] at h1 h2
      exact ih (h2 rfl) h1

theorem new_inv {σ : Type} (h : AsyncServiceHandler σ) (p o : Nat) {s : GRPCAsyncServer σ}
    (hq : QueueOK s) (hd : DeletedOK s) :
    QueueOK (CallData.new h p o s) ∧ DeletedOK (CallData.new h p o s) := by
  have hlen : s.calls.length ∉ s.cq := by
    intro hm
    obtain ⟨cd', hcd'⟩ := hq.2 _ hm
    exact absurd (lt_length_of_getElem? hcd') (Nat.lt_irrefl _)
  refine ⟨⟨?_, ?_⟩, ?_, ?_⟩
  · rw [CallData.new_cq]
    exact List.nodup_append.mpr ⟨hq.1, by simp, by
      intro a ha hb; simp at hb; subst hb; exact hlen ha⟩
  · intro t ht
    rw [CallData.new_cq] at ht
    rw [CallData.new_calls]
    rcases List.mem_append.mp ht with ht | ht
    · obtain ⟨cd, hcd⟩ := hq.2 t ht
      exact ⟨cd, by rw [List.getElem?_append_left (lt_length_of_getElem? hcd), hcd]⟩
    · simp at ht; subst ht
      exact ⟨_, List.getElem?_concat_length _ _⟩
  · rw [CallData.new_trace, deletions_append]
    simpa [deletions] using hd.1
  · intro t ht
    rw [CallData.new_trace, deletions_append] at ht
    simp [deletions] at ht
    have h1 := hd.2 t ht
    rw [CallData.new_calls, List.getElem?_append_left (lt_length_of_getElem? h1), h1]

theorem seed_inv {σ : Type} (h : AsyncServiceHandler σ) (ps : List Nat) :
    ∀ (i : Nat) {s : GRPCAsyncServer σ}, QueueOK s → DeletedOK s →
      QueueOK (GRPCAsyncServer.seed h ps i s) ∧ DeletedOK (GRPCAsyncServer.seed h ps i s) := by
  induction ps with
  | nil => intro i s hq hd; exact ⟨hq, hd⟩
  | cons p ps ih =>
    intro i s hq hd
    obtain ⟨h1, h2⟩ := new_inv h p i hq hd
    exact ih (i + 1) h1 h2

theorem drain_inv {σ : Type} (l : List Nat) :
    ∀ {s : GRPCAsyncServer σ}, l.Nodup → (∀ t, t ∈ l → ∃ cd, s.calls[t]? = some (some cd)) →
      DeletedOK s →
      (GRPCAsyncServer.drain l s).crash = none ∧ DeletedOK (GRPCAsyncServer.drain l s).state := by
  induction l with
  | nil => intro s _ _ hd; exact ⟨rfl, hd⟩
  | cons tag rest ih =>
    intro s hn hl hd
    obtain ⟨cd, hcd⟩ := hl tag (by simp)
    have hlt := lt_length_of_getElem? hcd
    obtain ⟨hnot, hn'⟩ := List.nodup_cons.mp hn
    have hnotdel : tag ∉ deletions s.trace := by
      intro hm; have := hd.2 tag hm; rw [hcd] at this; cases this
    simp only [GRPCAsyncServer.drain, hcd]
    apply ih hn'
    · intro t ht
      obtain ⟨cd', hcd'⟩ := hl t (List.mem_cons_of_mem _ ht)
      have hne : tag ≠ t := fun he => hnot (he ▸ ht)
      exact ⟨cd', by simp [CallData.delete, List.getElem?_set_ne hne, hcd']⟩
    · constructor
      · simp only [CallData.delete, deletions_append]
        exact List.nodup_append.mpr ⟨hd.1, by simp [deletions], by
          intro a ha hb; simp [deletions] at hb; subst hb; exact hnotdel ha⟩
      · intro t ht
        simp only [CallData.delete, deletions_append] at ht
        rcases List.mem_append.mp ht with ht | ht
        · have h1 := hd.2 t ht
          have hne : tag ≠ t := fun he => hnotdel (he ▸ ht)
          simp [CallData.delete, List.getElem?_set_ne hne, h1]
        · simp [deletions] at ht; subst ht
          simp [CallData.delete, List.getElem?_set_self hlt]

theorem deletions_register (services : List Nat) :
    deletions (services.map Event.RegisterService) = [] := by
  induction services with
  | nil => rfl
  | cons a l ih => simpa [deletions] using ih

theorem Shutdown_inv {σ : Type} {s : GRPCAsyncServer σ} (hq : QueueOK s) (hd : DeletedOK s) :
    (GRPCAsyncServer.Shutdown s).crash = none ∧ DeletedOK (GRPCAsyncServer.Shutdown s).state := by
  unfold GRPCAsyncServer.Shutdown
  apply drain_inv
  · exact hq.1
  · exact hq.2
  · constructor
    · simpa [GRPCAsyncServer.log, deletions_append, deletions] using hd.1
    · intro t ht
      simp [GRPCAsyncServer.log, deletions_append, deletions] at ht
      exact hd.2 t ht

theorem Run_inv {σ : Type} {h : AsyncServiceHandler σ} (hw : OneWritePerChunk h)
    (polls : List Poll) (s : GRPCAsyncServer σ) (htrace : deletions s.trace = []) :
    DeletedOK (GRPCAsyncServer.Run h polls s).state ∧
    ((GRPCAsyncServer.Run h polls s).crash = none →
      QueueOK (GRPCAsyncServer.Run h polls s).state) ∧
    ((GRPCAsyncServer.Run h polls s).crash = none ∨
      (GRPCAsyncServer.Run h polls s).crash = some Crash.assertion_failed ∨
      ∃ f, (GRPCAsyncServer.Run h polls s).crash = some (Crash.uncaught f)) := by
  simp only [GRPCAsyncServer.Run, register_fold]
  split
  · refine ⟨⟨?_, ?_⟩, ?_, Or.inr (Or.inl rfl)⟩
    · simp [Result.state, GRPCAsyncServer.log, deletions_append, deletions, htrace]
    · intro t ht
      simp [Result.state, GRPCAsyncServer.log, deletions_append, deletions, htrace] at ht
    · intro hc; cases hc
  · next hne =>
    simp only [GRPCAsyncServer.HandleRpcs]
    split
    · next he => exact absurd he hne
    · have hq0 : QueueOK ({ s with
          cq := []
          trace := s.trace ++ [Event.AddListeningPort ("0.0.0.0:" ++ toString s.port_)] ++
            s.services_.map Event.RegisterService ++
            [Event.AddCompletionQueue, Event.BuildAndStart] } : GRPCAsyncServer σ) :=
        ⟨List.nodup_nil, fun t ht => by cases ht⟩
      have hd0 : DeletedOK ({ s with
          cq := []
          trace := s.trace ++ [Event.AddListeningPort ("0.0.0.0:" ++ toString s.port_)] ++
            s.services_.map Event.RegisterService ++
            [Event.AddCompletionQueue, Event.BuildAndStart] } : GRPCAsyncServer σ) := by
        constructor
        · simp [deletions_append, deletions, htrace, deletions_register]
        · intro t ht
          simp [deletions_append, deletions, htrace, deletions_register] at ht
      obtain ⟨h1, h2⟩ := seed_inv h s.handlers_ 0 hq0 hd0
      obtain ⟨h3, h4, h5⟩ := loop_inv hw polls h1 h2
      simp only [GRPCAsyncServer.log, List.append_assoc, List.singleton_append,
        List.cons_append, List.nil_append] at h3 h4 h5 ⊢
      refine ⟨h3, h4, ?_⟩
      rcases h5 with h5 | h5
      · exact Or.inl h5
      · exact Or.inr (Or.inr h5)

theorem Scripted.oneWrite_scripted : OneWritePerChunk Scripted.handler := by
  intro x r hr
  simp only [Scripted.handler, Scripted.SendResponse] at hr ⊢
  split at hr
  · next he =>
    simp only [Except.ok.injEq] at hr
    subst hr
    simp [he]
  · next r' rs he =>
    simp only [Except.ok.injEq] at hr
    subst hr
    simp [he]

/-- C7, exactly-once destruction.  `Proceed` on a live record deletes it exactly
when the record is in `FINISH`, and the trace gains a `delete` in that case
only.  For a handler that queues one write when it returns `ACTIVE` or
`FINISHED` and none when it returns `IDLE`, over a whole run - `Run` with any
polls, then `Shutdown` with its drain - no record is deleted twice, the drain
never deletes a deleted record, and `Proceed` never runs on a deleted record;
this holds as well for a run that an assertion or an escaping exception cuts
short. -/
theorem C7_exactly_once_destruction {σ : Type} (h : AsyncServiceHandler σ) :
    (∀ (s : GRPCAsyncServer σ) (tag : Nat) (cd : CallData),
      s.calls[tag]? = some (some cd) →
      ((CallData.Proceed h tag s).state.calls[tag]? = some none ↔ cd.status_ = FINISH) ∧
      deletions (CallData.Proceed h tag s).state.trace =
        deletions s.trace ++ (if cd.status_ = FINISH then [tag] else [])) ∧
    (OneWritePerChunk h → ∀ (polls : List Poll) (s0 : GRPCAsyncServer σ),
      deletions s0.trace = [] →
      (deletions (GRPCAsyncServer.RunAndShutdown h polls s0).state.trace).Nodup ∧
      ∀ t, (GRPCAsyncServer.RunAndShutdown h polls s0).crash ≠ some (Crash.use_after_free t) ∧
        (GRPCAsyncServer.RunAndShutdown h polls s0).crash ≠ some (Crash.double_free t)) := by
  constructor
  · intro s tag cd hcd
    obtain ⟨c, extra, woken, evs, hcalls, -, htr, hfin, hnfin, -, hdel, -⟩ :=
      Proceed_state h tag cd s hcd
    have hlt := lt_length_of_getElem? hcd
    have hself : (CallData.Proceed h tag s).state.calls[tag]? = some c := by
      rw [hcalls, List.getElem?_set_self (by rw [List.length_append]; omega)]
    refine ⟨?_, by rw [htr, deletions_append, hdel]⟩
    rw [hself]
    constructor
    · intro hc
      by_contra hf
      obtain ⟨cd', hc'⟩ := hnfin hf
      rw [hc'] at hc; cases hc
    · intro hf; rw [hfin hf]
  · intro hw polls s0 htrace
    obtain ⟨h1, h2, h3⟩ := Run_inv hw polls s0 htrace
    unfold GRPCAsyncServer.RunAndShutdown
    cases hrun : GRPCAsyncServer.Run h polls s0 with
    | error c =>
      rw [hrun] at h1 h3
      refine ⟨h1.1, fun t => ?_⟩
      rcases h3 with h3 | h3 | ⟨f, h3⟩ <;> simp only [Result.crash] at h3 ⊢ <;>
        rw [h3] <;> simp
    | ok s1 =>
      rw [hrun] at h1 h2
      obtain ⟨h4, h5⟩ := Shutdown_inv (h2 rfl) h1
      simp only [Result.state] at h4 h5
      refine ⟨h5.1, fun t => ?_⟩
      simp only
      rw [h4]; simp

/-- C7 at a concrete run: a call is matched, produces a chunk and finishes and
its record is deleted by `Proceed`; a failed event and a timeout come in
between; `Shutdown` then deletes the replacement listener. -/
theorem C7_exactly_once_destruction_witness :
    (deletions (GRPCAsyncServer.RunAndShutdown Scripted.handler
        [Poll.GOT_EVENT 0 true, Poll.GOT_EVENT 0 true, Poll.TIMEOUT, Poll.GOT_EVENT 0 true,
          Poll.GOT_EVENT 0 true] (Scripted.server [ACTIVE, FINISHED])).state.trace).Nodup ∧
    deletions (GRPCAsyncServer.RunAndShutdown Scripted.handler
        [Poll.GOT_EVENT 0 true, Poll.GOT_EVENT 0 true, Poll.TIMEOUT, Poll.GOT_EVENT 0 true,
          Poll.GOT_EVENT 0 true] (Scripted.server [ACTIVE, FINISHED])).state.trace = [0, 1] ∧
    (GRPCAsyncServer.RunAndShutdown Scripted.handler
        [Poll.GOT_EVENT 0 true, Poll.GOT_EVENT 0 true, Poll.TIMEOUT, Poll.GOT_EVENT 0 true,
          Poll.GOT_EVENT 0 true] (Scripted.server [ACTIVE, FINISHED])).crash = none :=
  ⟨((C7_exactly_once_destruction Scripted.handler).2 Scripted.oneWrite_scripted
      [Poll.GOT_EVENT 0 true, Poll.GOT_EVENT 0 true, Poll.TIMEOUT, Poll.GOT_EVENT 0 true,
        Poll.GOT_EVENT 0 true] (Scripted.server [ACTIVE, FINISHED]) rfl).1,
    by decide, by decide⟩

/-! ## Shutdown and failed events -/

/-- C5 at its failing input.  One handler that keeps the write contract; a call
is matched and a chunk is written (`GOT_EVENT 0 true`), then the write comes
back failed (`GOT_EVENT 0 false`) and the loop drops the tag.  `Shutdown` drains
the queue, which only holds the tag of the replacement listener: record 1 is
deleted, record 0 is still allocated, in `PUSH_TO_BACK`, after `Shutdown`
returned. -/
theorem C5_shutdown_leaves_record_after_failed_event :
    (GRPCAsyncServer.RunAndShutdown Scripted.handler
        [Poll.GOT_EVENT 0 true, Poll.GOT_EVENT 0 false]
        (Scripted.server [ACTIVE, FINISHED])).crash = none ∧
    (GRPCAsyncServer.RunAndShutdown Scripted.handler
        [Poll.GOT_EVENT 0 true, Poll.GOT_EVENT 0 false]
        (Scripted.server [ACTIVE, FINISHED])).state.calls =
      [some ⟨0, PUSH_TO_BACK, 0⟩, none] ∧
    (GRPCAsyncServer.RunAndShutdown Scripted.handler
        [Poll.GOT_EVENT 0 true, Poll.GOT_EVENT 0 false]
        (Scripted.server [ACTIVE, FINISHED])).state.undestroyed = [0] ∧
    deletions (GRPCAsyncServer.RunAndShutdown Scripted.handler
        [Poll.GOT_EVENT 0 true, Poll.GOT_EVENT 0 false]
        (Scripted.server [ACTIVE, FINISHED])).state.trace = [1] := by
  decide

/-! ## Faults of `SendResponse` -/

/-- C6 as stated fails: the handler `Throwing.handler` throws from
`SendResponse`.  `Proceed` on the matched record ends with the exception, which
also ends `HandleRpcs` and `Run`; the record is left in `PUSH_TO_BACK`, not in
`FINISH`. -/
theorem C6_fault_leaves_Proceed :
    (CallData.Proceed Throwing.handler 0
        (CallData.new Throwing.handler 0 0
          (GRPCAsyncServer.create 9314 [0] [0] (fun _ => ()) 1))).crash =
      some (Crash.uncaught Fault.runtime_error) ∧
    (GRPCAsyncServer.Run Throwing.handler [Poll.GOT_EVENT 0 true]
        (GRPCAsyncServer.create 9314 [0] [0] (fun _ => ()) 1)).crash =
      some (Crash.uncaught Fault.runtime_error) ∧
    (GRPCAsyncServer.Run Throwing.handler [Poll.GOT_EVENT 0 true]
        (GRPCAsyncServer.create 9314 [0] [0] (fun _ => ()) 1)).state.calls =
      [some ⟨0, PUSH_TO_BACK, 0⟩, some ⟨1, START_PROCESSING, 0⟩] := by
  decide

theorem AsyncStreamHandler.SendResponse_raises (fault : Option TryFault)
    (x : AsyncStreamHandler) (hf : AsyncStreamHandler.raises fault x = true) :
    AsyncStreamHandler.SendResponse fault x =
      { handler := { x with num_responses_remaining_ := x.num_responses_remaining_ - 1 }
        writes := []
        status := FINISHED } := by
  cases fault with
  | none => simp [AsyncStreamHandler.raises] at hf
  | some f =>
    cases f with
    | set_response e => rfl
    | writer e =>
      simp only [AsyncStreamHandler.raises, Bool.or_eq_true, decide_eq_true_eq] at hf
      simp only [AsyncStreamHandler.SendResponse]
      rcases hf with hf | hf
      · simp [hf]
      · by_cases h0 : x.num_responses_remaining_ - 1 = 0
        · simp [h0]
        · simp [h0, hf]

/-- C6, amended.  Take the example handler `AsyncStreamHandler`, with any
assignment `env` of exceptions to handler states, and a record `tag` (call A)
in `START_PROCESSING` or `CONTINUE_PROCESSING` for whose handler the `try` block
of `SendResponse` raises.  The exception is caught inside `SendResponse`, which
returns `FINISHED` and writes nothing; `Proceed` returns normally and leaves
A's record in `FINISH`; every other record that existed and every other handler
object is unchanged.  With any other assignment `env'` (for instance no
exception at all) the same `Proceed` leaves those other records and handler
objects in the very same state. -/
theorem C6_fault_isolation_amended (env env' : AsyncStreamHandler → Option TryFault)
    (s : GRPCAsyncServer AsyncStreamHandler) (tag : Nat) (cd : CallData)
    (hcd : s.calls[tag]? = some (some cd))
    (hst : cd.status_ = START_PROCESSING ∨ cd.status_ = CONTINUE_PROCESSING)
    (hobj : cd.async_service_handler_ < s.next_object)
    (hf : AsyncStreamHandler.raises (env (s.objects cd.async_service_handler_))
      (s.objects cd.async_service_handler_) = true) :
    (AsyncStreamHandler.SendResponse (env (s.objects cd.async_service_handler_))
        (s.objects cd.async_service_handler_)).status = FINISHED ∧
    (AsyncStreamHandler.SendResponse (env (s.objects cd.async_service_handler_))
        (s.objects cd.async_service_handler_)).writes = [] ∧
    ∃ s', CallData.Proceed (AsyncStreamHandler.handler env) tag s = Except.ok s' ∧
      s'.calls[tag]? = some (some { cd with status_ := FINISH }) ∧
      (∀ t, t ≠ tag → t < s.calls.length → s'.calls[t]? = s.calls[t]?) ∧
      (∀ q, q ≠ cd.async_service_handler_ → q < s.next_object → s'.objects q = s.objects q) ∧
      ∃ s'', CallData.Proceed (AsyncStreamHandler.handler env') tag s = Except.ok s'' ∧
        (∀ t, t ≠ tag → t < s.calls.length → s''.calls[t]? = s'.calls[t]?) ∧
        (∀ q, q ≠ cd.async_service_handler_ → q < s.next_object →
          s''.objects q = s'.objects q) := by
  have hsend := AsyncStreamHandler.SendResponse_raises _ _ hf
  have hr : ((AsyncStreamHandler.handler env).SendResponse
      (s.objects cd.async_service_handler_)).result = Except.ok FINISHED := by
    simp [AsyncStreamHandler.handler, hsend]
  obtain ⟨s', h1, h2, -, -, -, -, -, h8, h9, -⟩ :=
    Proceed_respond (AsyncStreamHandler.handler env) s tag cd FINISHED hcd hst hobj hr
  obtain ⟨s'', g1, -, -, -, -, -, -, g8, g9, -⟩ :=
    Proceed_respond (AsyncStreamHandler.handler env') s tag cd
      (AsyncStreamHandler.SendResponse (env' (s.objects cd.async_service_handler_))
        (s.objects cd.async_service_handler_)).status hcd hst hobj rfl
  refine ⟨by rw [hsend], by rw [hsend], s', h1, h2, h8, h9, s'', g1, ?_, ?_⟩
  · intro t ht1 ht2; rw [g8 t ht1 ht2, h8 t ht1 ht2]
  · intro q hq1 hq2; rw [g9 q hq1 hq2, h9 q hq1 hq2]

/-- C6 amended, at a concrete state: two listeners of the example handler, A at
address 0 and B at address 1; building the response text raises for A. -/
theorem C6_fault_isolation_amended_witness :
    ∃ s', CallData.Proceed
        (AsyncStreamHandler.handler (fun _ => some (TryFault.set_response Fault.runtime_error))) 0
        (GRPCAsyncServer.seed
          (AsyncStreamHandler.handler (fun _ => some (TryFault.set_response Fault.runtime_error)))
          [0, 1] 0
          (GRPCAsyncServer.create 9314 [0] [0, 1] (fun _ => AsyncStreamHandler.construct) 2)) =
        Except.ok s' ∧
      s'.calls[0]? = some (some ⟨0, FINISH, 0⟩) ∧
      s'.calls[1]? = some (some ⟨1, START_PROCESSING, 1⟩) ∧
      s'.objects 1 = ⟨"", true, 2000⟩ :=
  match C6_fault_isolation_amended
      (fun _ => some (TryFault.set_response Fault.runtime_error)) (fun _ => none)
      (GRPCAsyncServer.seed
        (AsyncStreamHandler.handler (fun _ => some (TryFault.set_response Fault.runtime_error)))
        [0, 1] 0
        (GRPCAsyncServer.create 9314 [0] [0, 1] (fun _ => AsyncStreamHandler.construct) 2))
      0 ⟨0, START_PROCESSING, 0⟩ (by decide) (by decide) (by decide) (by decide) with
  | ⟨_, _, s', h1, h2, h8, h9, _⟩ =>
    ⟨s', h1, h2, (h8 1 (by decide) (by decide)).trans (by decide),
      (h9 1 (by decide) (by decide)).trans (by decide)⟩

/-! ## What the drain does reach -/

theorem Proceed_live {σ : Type} {h : AsyncServiceHandler σ} (hw : OneWritePerChunk h)
    {s : GRPCAsyncServer σ} {tag : Nat} {cd : CallData}
    (hcd : s.calls[tag]? = some (some cd))
    (hlq : ∀ t cd', t ≠ tag → s.calls[t]? = some (some cd') → t ∈ s.cq)
    (hcrash : (CallData.Proceed h tag s).crash = none) :
    LiveQueued (CallData.Proceed h tag s).state := by
  obtain ⟨c, extra, woken, evs, hcalls, hcq, -, hfin, -, hextra, -, -, -, hwoken⟩ :=
    Proceed_state h tag cd s hcd
  have hlt := lt_length_of_getElem? hcd
  have hwk := hwoken hw hcrash
  intro t cd' ht
  rw [hcq, hwk]
  rw [hcalls] at ht
  by_cases htt : t = tag
  · subst htt
    rw [List.getElem?_set_self (by rw [List.length_append]; omega)] at ht
    have hnf : ¬ cd.status_ = FINISH := by
      intro hf; rw [hfin hf] at ht; cases ht
    simp [hnf]
  · rw [List.getElem?_set_ne (Ne.symm htt)] at ht
    rcases Nat.lt_or_ge t s.calls.length with hl | hl
    · rw [List.getElem?_append_left hl] at ht
      exact List.mem_append_left _ (hlq t cd' htt ht)
    · rcases hextra with he | ⟨-, n, he⟩
      · rw [he, List.append_nil, List.getElem?_eq_none hl] at ht; cases ht
      · have hlen := lt_length_of_getElem? ht
        rw [he, List.length_append, List.length_singleton] at hlen
        have : t = s.calls.length := by omega
        subst this
        rw [he]; simp

theorem poll_live {σ : Type} {h : AsyncServiceHandler σ} (hw : OneWritePerChunk h)
    {s : GRPCAsyncServer σ} (e : Poll) (hq : QueueOK s) (hl : LiveQueued s)
    (hok : ∀ t, e ≠ Poll.GOT_EVENT t false)
    (hcrash : (GRPCAsyncServer.poll h s e).crash = none) :
    LiveQueued (GRPCAsyncServer.poll h s e).state := by
  cases e with
  | GOT_EVENT tag ok =>
    simp only [GRPCAsyncServer.poll] at hcrash ⊢
    split
    · next hmem =>
      rw [if_pos hmem] at hcrash
      obtain ⟨cd, hcd⟩ := hq.2 tag hmem
      cases ok with
      | false => exact absurd rfl (hok tag)
      | true =>
        simp only [if_true] at hcrash ⊢
        apply Proceed_live hw (s := { s with cq := s.cq.erase tag }) hcd _ hcrash
        intro t cd' hne ht
        exact (List.mem_erase_of_ne hne).mpr (hl t cd' ht)
    · exact hl
  | TIMEOUT => exact hl
  | SHUTDOWN => exact hl

theorem loop_live {σ : Type} {h : AsyncServiceHandler σ} (hw : OneWritePerChunk h)
    (polls : List Poll) :
    ∀ {s : GRPCAsyncServer σ}, QueueOK s → DeletedOK s → LiveQueued s →
      (∀ t, Poll.GOT_EVENT t false ∉ polls) →
      (GRPCAsyncServer.loop h polls s).crash = none →
      LiveQueued (GRPCAsyncServer.loop h polls s).state := by
  induction polls with
  | nil => intro s _ _ hl _ _; exact hl
  | cons e es ih =>
    intro s hq hd hl hok hcrash
    have hok1 : ∀ t, e ≠ Poll.GOT_EVENT t false := fun t he => hok t (by rw [he]; simp)
    have hok2 : ∀ t, Poll.GOT_EVENT t false ∉ es := fun t hm => hok t (List.mem_cons_of_mem _ hm)
    obtain ⟨h1, h2, -⟩ := poll_inv hw e hq hd
    have h3 := poll_live hw e hq hl hok1
    simp only [GRPCAsyncServer.loop] at hcrash ⊢
    cases hp : GRPCAsyncServer.poll h s e with
    | error c => rw [hp] at hcrash; cases hcrash
    | ok s1 =>
      rw [hp] at h1 h2 h3 hcrash
      exact ih (h2 rfl) h1 (h3 rfl) hok2 hcrash

theorem seed_live {σ : Type} (h : AsyncServiceHandler σ) (ps : List Nat) :
    ∀ (i : Nat) {s : GRPCAsyncServer σ}, LiveQueued s →
      LiveQueued (GRPCAsyncServer.seed h ps i s) := by
  induction ps with
  | nil => intro i s hl; exact hl
  | cons p ps ih =>
    intro i s hl
    apply ih (i + 1)
    intro t cd ht
    rw [CallData.new_calls] at ht
    rw [CallData.new_cq]
    rcases Nat.lt_or_ge t s.calls.length with hlt | hge
    · rw [List.getElem?_append_left hlt] at ht
      exact List.mem_append_left _ (hl t cd ht)
    · have hlen := lt_length_of_getElem? ht
      rw [List.length_append, List.length_singleton] at hlen
      have : t = s.calls.length := by omega
      subst this; simp

theorem drain_live {σ : Type} (l : List Nat) :
    ∀ {s : GRPCAsyncServer σ}, l.Nodup →
      (∀ t, t ∈ l → ∃ cd, s.calls[t]? = some (some cd)) →
      (∀ (t : Nat) (cd : CallData), s.calls[t]? = some (some cd) → t ∈ l) →
      ∀ (t : Nat) (cd : CallData),
        (GRPCAsyncServer.drain l s).state.calls[t]? ≠ some (some cd) := by
  induction l with
  | nil =>
    intro s _ _ hl t cd ht
    exact absurd (hl t cd ht) (List.not_mem_nil t)
  | cons tag rest ih =>
    intro s hn hall hl
    obtain ⟨cd0, hcd0⟩ := hall tag (by simp)
    have hlt := lt_length_of_getElem? hcd0
    obtain ⟨hnot, hn'⟩ := List.nodup_cons.mp hn
    simp only [GRPCAsyncServer.drain, hcd0]
    apply ih hn'
    · intro t ht
      obtain ⟨cd', hcd'⟩ := hall t (List.mem_cons_of_mem _ ht)
      have hne : tag ≠ t := fun he => hnot (he ▸ ht)
      exact ⟨cd', by simp [CallData.delete, List.getElem?_set_ne hne, hcd']⟩
    · intro t' cd' ht'
      by_cases he : t' = tag
      · subst he
        simp [CallData.delete, List.getElem?_set_self hlt] at ht'
      · simp only [CallData.delete, List.getElem?_set_ne (Ne.symm he)] at ht'
        rcases List.mem_cons.mp (hl t' cd' ht') with h1 | h1
        · exact absurd h1 he
        · exact h1

theorem AsyncStreamHandler.oneWrite_without_fault :
    OneWritePerChunk (AsyncStreamHandler.handler (fun _ => none)) := by
  intro x r hr
  simp only [AsyncStreamHandler.handler, AsyncStreamHandler.SendResponse, Except.ok.injEq] at hr ⊢
  split at hr <;> [skip; split at hr] <;> subst hr <;> simp [*]

/-- The drain reaches every record when no event failed: for a handler that
keeps the write contract, a run whose polls are successful events and timeouts
only and that no exception cuts short ends with every record deleted. -/
theorem Shutdown_frees_all_without_failed_event {σ : Type} {h : AsyncServiceHandler σ}
    (hw : OneWritePerChunk h) (polls : List Poll) (s0 : GRPCAsyncServer σ)
    (hok : ∀ t, Poll.GOT_EVENT t false ∉ polls)
    (hcalls : s0.calls = []) (htrace : deletions s0.trace = [])
    (hcrash : (GRPCAsyncServer.RunAndShutdown h polls s0).crash = none) :
    (GRPCAsyncServer.RunAndShutdown h polls s0).state.undestroyed = [] := by
  have hnolive : ∀ (t : Nat) (cd : CallData),
      (GRPCAsyncServer.RunAndShutdown h polls s0).state.calls[t]? ≠ some (some cd) := by
    obtain ⟨h1, h2, -⟩ := Run_inv hw polls s0 htrace
    have hlive : (GRPCAsyncServer.Run h polls s0).crash = none →
        LiveQueued (GRPCAsyncServer.Run h polls s0).state := by
      simp only [GRPCAsyncServer.Run, register_fold]
      split
      · intro hc; cases hc
      · next hne =>
        simp only [GRPCAsyncServer.HandleRpcs]
        split
        · next he => exact absurd he hne
        · have hq0 : QueueOK ({ s0 with
              cq := []
              trace := s0.trace ++ [Event.AddListeningPort ("0.0.0.0:" ++ toString s0.port_)] ++
                s0.services_.map Event.RegisterService ++
                [Event.AddCompletionQueue, Event.BuildAndStart] } : GRPCAsyncServer σ) :=
            ⟨List.nodup_nil, fun t ht => by cases ht⟩
          have hd0 : DeletedOK ({ s0 with
              cq := []
              trace := s0.trace ++ [Event.AddListeningPort ("0.0.0.0:" ++ toString s0.port_)] ++
                s0.services_.map Event.RegisterService ++
                [Event.AddCompletionQueue, Event.BuildAndStart] } : GRPCAsyncServer σ) := by
            constructor
            · simp [deletions_append, deletions, htrace, deletions_register]
            · intro t ht
              simp [deletions_append, deletions, htrace, deletions_register] at ht
          have hl0 : LiveQueued ({ s0 with
              cq := []
              trace := s0.trace ++ [Event.AddListeningPort ("0.0.0.0:" ++ toString s0.port_)] ++
                s0.services_.map Event.RegisterService ++
                [Event.AddCompletionQueue, Event.BuildAndStart] } : GRPCAsyncServer σ) := by
            intro t cd ht
            simp [hcalls] at ht
          obtain ⟨g1, g2⟩ := seed_inv h s0.handlers_ 0 hq0 hd0
          have g3 := seed_live h s0.handlers_ 0 hl0
          have g4 := loop_live hw polls g1 g2 g3 hok
          simp only [GRPCAsyncServer.log, List.append_assoc, List.singleton_append,
            List.cons_append, List.nil_append] at g4 ⊢
          exact g4
    unfold GRPCAsyncServer.RunAndShutdown at hcrash ⊢
    cases hrun : GRPCAsyncServer.Run h polls s0 with
    | error c => rw [hrun] at hcrash; cases hcrash
    | ok s1 =>
      rw [hrun] at h1 h2 hlive
      simp only [Result.state] at h1 h2 hlive
      have hq := h2 rfl
      have hl := hlive rfl
      simp only
      unfold GRPCAsyncServer.Shutdown
      exact drain_live _ hq.1 hq.2 hl
  unfold GRPCAsyncServer.undestroyed
  rw [List.filter_eq_nil_iff]
  intro t _
  unfold GRPCAsyncServer.live
  split
  · next cd hcd => exact absurd hcd (hnolive t cd)
  · simp

/-! ## `ListenForRequest` is called once on a handler object -/

theorem listens_append (a b : List Event) : listens (a ++ b) = listens a ++ listens b := by
  induction a with
  | nil => simp [listens]
  | cons e a ih => cases e <;> simp [listens, ih]

theorem respond_objects {σ : Type} (h : AsyncServiceHandler σ) (tag : Nat) (cd : CallData)
    (s : GRPCAsyncServer σ) :
    (CallData.respond h tag cd s).state.objects =
      Function.update s.objects cd.async_service_handler_
        (h.SendResponse (s.objects cd.async_service_handler_)).handler := by
  simp only [CallData.respond]
  split <;> rfl

theorem respond_listens {σ : Type} (h : AsyncServiceHandler σ) (tag : Nat) (cd : CallData)
    (s : GRPCAsyncServer σ) :
    listens (CallData.respond h tag cd s).state.trace = listens s.trace := by
  rw [respond_trace, listens_append]
  split <;> simp [listens]

/-- The monitor flag is untouched by `SendResponse`, and the object that a
spawned record listens on passes the assertion. -/
theorem monitored_flags (env : AsyncStreamHandler → Option TryFault)
    (m : GenericAsyncHandler.Monitored) :
    ((AsyncStreamHandler.monitored env).SendResponse m).handler.assertion_failed =
      m.assertion_failed ∧
    ((AsyncStreamHandler.monitored env).ListenForRequest
      ((AsyncStreamHandler.monitored env).CreateNewHandler m)).assertion_failed = false ∧
    (m.object.responder_ = false →
      ((AsyncStreamHandler.monitored env).ListenForRequest m).assertion_failed =
        m.assertion_failed) := by
  refine ⟨rfl, rfl, ?_⟩
  intro hr
  simp [AsyncStreamHandler.monitored, GenericAsyncHandler.Monitored.ListenForRequest,
    GenericAsyncHandler.ListenForRequest_assertion, hr]

/-- The store and the `ListenForRequest` calls after `spawn`. -/
theorem spawn_ListenOnce {σ : Type} (h : AsyncServiceHandler σ) (cd : CallData)
    {s : GRPCAsyncServer σ} (hs : ListenOnce s) :
    ListenOnce (CallData.spawn h cd s) := by
  obtain ⟨h1, h2, h3, h4⟩ := hs
  have hl : listens (CallData.spawn h cd s).trace =
      listens s.trace ++ [(s.calls.length, s.next_object)] := by
    rw [CallData.spawn_trace, listens_append]; simp [spawnEvents, listens]
  refine ⟨?_, ?_, ?_, ?_⟩
  · intro cd' hmem
    rw [CallData.spawn_calls] at hmem
    rcases List.mem_append.mp hmem with hm | hm
    · exact h1 cd' hm
    · simp at hm; subst hm; simp
  · intro e he
    rw [hl] at he
    rw [CallData.spawn_calls, CallData.spawn_next_object, List.length_append,
      List.length_singleton]
    rcases List.mem_append.mp he with he | he
    · have := h2 e he; omega
    · simp at he; subst he; simp
  · rw [hl, List.map_append]
    refine List.nodup_append.mpr ⟨h3, by simp, ?_⟩
    intro a ha hb
    simp at hb; subst hb
    obtain ⟨e, he, hfst⟩ := List.mem_map.mp ha
    have := (h2 e he).1
    omega
  · rw [hl, List.map_append]
    refine List.nodup_append.mpr ⟨h4, by simp, ?_⟩
    intro a ha hb
    simp at hb; subst hb
    obtain ⟨e, he, hsnd⟩ := List.mem_map.mp ha
    have := (h2 e he).2
    omega

theorem respond_NoCreate {σ : Type} (h : AsyncServiceHandler σ) (tag : Nat) (cd : CallData)
    {s : GRPCAsyncServer σ} (hs : NoCreate s) :
    NoCreate (CallData.respond h tag cd s).state := by
  cases hr : (h.SendResponse (s.objects cd.async_service_handler_)).result with
  | error e =>
    obtain ⟨s', g1, g2, -⟩ := CallData.respond_error h tag cd s hr
    rw [g1]
    exact NoCreate_set hs (by intro cd' hcd'; cases hcd'; simp) g2
  | ok r =>
    obtain ⟨s', g1, g2, -⟩ := CallData.respond_ok h tag cd s hr
    rw [g1]
    exact NoCreate_set hs (by intro cd' hcd'; cases hcd'; exact after_ne_CREATE r) g2

theorem respond_ListenOnce {σ : Type} (h : AsyncServiceHandler σ) (tag : Nat) (cd : CallData)
    {s : GRPCAsyncServer σ} (hs : ListenOnce s) :
    ListenOnce (CallData.respond h tag cd s).state := by
  obtain ⟨h1, h2, h3, h4⟩ := hs
  obtain ⟨st, -, -, hc, -, -, hn, -⟩ := respond_state h tag cd s
  refine ⟨respond_NoCreate h tag cd h1, ?_, ?_, ?_⟩
  · intro e he
    rw [respond_listens] at he
    rw [hc, hn, List.length_set]
    exact h2 e he
  · rw [respond_listens]; exact h3
  · rw [respond_listens]; exact h4

/-- Every step of `Proceed` keeps the record of `ListenForRequest` calls in
order: a record that is not in `CREATE` makes no such call itself, and the one
made for a spawned record is made by a new record on a new handler object. -/
theorem Proceed_ListenOnce {σ : Type} (h : AsyncServiceHandler σ) (tag : Nat)
    {s : GRPCAsyncServer σ} (hs : ListenOnce s) :
    ListenOnce (CallData.Proceed h tag s).state := by
  cases hcd : s.calls[tag]? with
  | none => rw [CallData.Proceed_dead (by intro cd; rw [hcd]; simp)]; exact hs
  | some o =>
    cases o with
    | none => rw [CallData.Proceed_dead (by intro cd; rw [hcd]; simp)]; exact hs
    | some cd =>
      have hlt := lt_length_of_getElem? hcd
      cases hst : cd.status_ with
      | CREATE => exact absurd hst (hs.1 cd (mem_of_getElem?' hcd))
      | START_PROCESSING =>
        rw [CallData.Proceed_START hcd hst]
        exact respond_ListenOnce h tag cd (spawn_ListenOnce h cd hs)
      | CONTINUE_PROCESSING =>
        rw [CallData.Proceed_CONTINUE hcd hst]
        exact respond_ListenOnce h tag cd hs
      | PUSH_TO_BACK =>
        rw [CallData.Proceed_PUSH hcd hst]
        obtain ⟨h1, h2, h3, h4⟩ := hs
        refine ⟨NoCreate_set h1 (by intro cd' hcd'; cases hcd'; simp) rfl, ?_, ?_, ?_⟩
        · intro e he
          simp only [Result.state, listens_append, listens, List.append_nil,
            List.length_set] at he ⊢
          exact h2 e he
        · simpa [Result.state, listens_append, listens] using h3
        · simpa [Result.state, listens_append, listens] using h4
      | FINISH =>
        rw [CallData.Proceed_FINISH hcd hst]
        obtain ⟨h1, h2, h3, h4⟩ := hs
        refine ⟨NoCreate_set h1 (by intro cd' hcd'; cases hcd') rfl, ?_, ?_, ?_⟩
        · intro e he
          simp only [Result.state, CallData.delete, listens_append, listens, List.append_nil,
            List.length_set] at he ⊢
          exact h2 e he
        · simpa [Result.state, CallData.delete, listens_append, listens] using h3
        · simpa [Result.state, CallData.delete, listens_append, listens] using h4

theorem respond_flags (env : AsyncStreamHandler → Option TryFault) (tag : Nat) (cd : CallData)
    {s : GRPCAsyncServer GenericAsyncHandler.Monitored}
    (hf : ∀ q, (s.objects q).assertion_failed = false) :
    ∀ q, ((CallData.respond (AsyncStreamHandler.monitored env) tag cd s).state.objects
      q).assertion_failed = false := by
  intro q
  rw [respond_objects]
  by_cases hq : q = cd.async_service_handler_
  · subst hq
    rw [Function.update_same, (monitored_flags env _).1]
    exact hf _
  · rw [Function.update_noteq hq]; exact hf q

/-- No step of `Proceed` on a store without a record in `CREATE` sets the
monitor of any handler object. -/
theorem Proceed_flags (env : AsyncStreamHandler → Option TryFault) (tag : Nat)
    {s : GRPCAsyncServer GenericAsyncHandler.Monitored} (hs : NoCreate s)
    (hf : ∀ q, (s.objects q).assertion_failed = false) :
    ∀ q, ((CallData.Proceed (AsyncStreamHandler.monitored env) tag s).state.objects
      q).assertion_failed = false := by
  cases hcd : s.calls[tag]? with
  | none => rw [CallData.Proceed_dead (by intro cd; rw [hcd]; simp)]; exact hf
  | some o =>
    cases o with
    | none => rw [CallData.Proceed_dead (by intro cd; rw [hcd]; simp)]; exact hf
    | some cd =>
      cases hst : cd.status_ with
      | CREATE => exact absurd hst (hs cd (mem_of_getElem?' hcd))
      | START_PROCESSING =>
        rw [CallData.Proceed_START hcd hst]
        apply respond_flags
        intro q
        rw [CallData.spawn_objects]
        by_cases hq : q = s.next_object
        · subst hq
          rw [Function.update_same]
          exact (monitored_flags env _).2.1
        · rw [Function.update_noteq hq]; exact hf q
      | CONTINUE_PROCESSING =>
        rw [CallData.Proceed_CONTINUE hcd hst]
        exact respond_flags env tag cd hf
      | PUSH_TO_BACK =>
        rw [CallData.Proceed_PUSH hcd hst]; exact hf
      | FINISH =>
        rw [CallData.Proceed_FINISH hcd hst]; exact hf

theorem poll_monitored (env : AsyncStreamHandler → Option TryFault) (e : Poll)
    {s : GRPCAsyncServer GenericAsyncHandler.Monitored} (hs : ListenOnce s)
    (hf : ∀ q, (s.objects q).assertion_failed = false) :
    ListenOnce (GRPCAsyncServer.poll (AsyncStreamHandler.monitored env) s e).state ∧
    ∀ q, ((GRPCAsyncServer.poll (AsyncStreamHandler.monitored env) s e).state.objects
      q).assertion_failed = false := by
  cases e with
  | GOT_EVENT tag ok =>
    simp only [GRPCAsyncServer.poll]
    split
    · split
      · exact ⟨Proceed_ListenOnce _ tag (s := { s with cq := s.cq.erase tag }) hs,
          Proceed_flags env tag (s := { s with cq := s.cq.erase tag }) hs.1 hf⟩
      · exact ⟨hs, hf⟩
    · exact ⟨hs, hf⟩
  | TIMEOUT => exact ⟨hs, hf⟩
  | SHUTDOWN => exact ⟨hs, hf⟩

theorem loop_monitored (env : AsyncStreamHandler → Option TryFault) (polls : List Poll) :
    ∀ {s : GRPCAsyncServer GenericAsyncHandler.Monitored}, ListenOnce s →
      (∀ q, (s.objects q).assertion_failed = false) →
      ListenOnce (GRPCAsyncServer.loop (AsyncStreamHandler.monitored env) polls s).state ∧
      ∀ q, ((GRPCAsyncServer.loop (AsyncStreamHandler.monitored env) polls s).state.objects
        q).assertion_failed = false := by
  induction polls with
  | nil => intro s hs hf; exact ⟨hs, hf⟩
  | cons e es ih =>
    intro s hs hf
    obtain ⟨h1, h2⟩ := poll_monitored env e hs hf
    simp only [GRPCAsyncServer.loop]
    cases hp : GRPCAsyncServer.poll (AsyncStreamHandler.monitored env) s e with
    | error c => rw [hp] at h1 h2; exact ⟨h1, h2⟩
    | ok s1 => rw [hp] at h1 h2; exact ih h1 h2

/-- Seeding: every handler of the list is listened on once, by its own new
record, and passes the assertion, when the handlers of the list are pairwise
distinct allocated objects with no writer bound and no listen made yet. -/
theorem seed_monitored (env : AsyncStreamHandler → Option TryFault) (ps : List Nat) :
    ∀ (i : Nat) {s : GRPCAsyncServer GenericAsyncHandler.Monitored}, ListenOnce s →
      (∀ q, (s.objects q).assertion_failed = false) → ps.Nodup →
      (∀ p, p ∈ ps → p < s.next_object ∧ (s.objects p).object.responder_ = false ∧
        p ∉ (listens s.trace).map Prod.snd) →
      ListenOnce (GRPCAsyncServer.seed (AsyncStreamHandler.monitored env) ps i s) ∧
      ∀ q, ((GRPCAsyncServer.seed (AsyncStreamHandler.monitored env) ps i s).objects
        q).assertion_failed = false := by
  induction ps with
  | nil => intro i s hs hf _ _; exact ⟨hs, hf⟩
  | cons p ps ih =>
    intro i s hs hf hnd hps
    obtain ⟨hnot, hnd'⟩ := List.nodup_cons.mp hnd
    obtain ⟨hp1, hp2, hp3⟩ := hps p (by simp)
    obtain ⟨h1, h2, h3, h4⟩ := hs
    have hl : listens (CallData.new (AsyncStreamHandler.monitored env) p i s).trace =
        listens s.trace ++ [(s.calls.length, p)] := by
      rw [CallData.new_trace, listens_append]; simp [listens]
    simp only [GRPCAsyncServer.seed]
    apply ih (i + 1)
    · refine ⟨?_, ?_, ?_, ?_⟩
      · intro cd hmem
        rw [CallData.new_calls] at hmem
        rcases List.mem_append.mp hmem with hm | hm
        · exact h1 cd hm
        · simp at hm; subst hm; simp
      · intro e he
        rw [hl] at he
        rw [CallData.new_calls, CallData.new_next_object, List.length_append,
          List.length_singleton]
        rcases List.mem_append.mp he with he | he
        · have := h2 e he; omega
        · simp at he; subst he; exact ⟨by simp, hp1⟩
      · rw [hl, List.map_append]
        refine List.nodup_append.mpr ⟨h3, by simp, ?_⟩
        intro a ha hb
        simp at hb; subst hb
        obtain ⟨e, he, hfst⟩ := List.mem_map.mp ha
        have := (h2 e he).1
        omega
      · rw [hl, List.map_append]
        refine List.nodup_append.mpr ⟨h4, by simp, ?_⟩
        intro a ha hb
        simp at hb; subst hb
        exact hp3 ha
    · intro q
      rw [CallData.new_objects]
      by_cases hq : q = p
      · subst hq
        rw [Function.update_same, (monitored_flags env _).2.2 hp2]
        exact hf q
      · rw [Function.update_noteq hq]; exact hf q
    · exact hnd'
    · intro p' hp'
      obtain ⟨g1, g2, g3⟩ := hps p' (List.mem_cons_of_mem _ hp')
      have hne : p' ≠ p := fun he => hnot (he ▸ hp')
      refine ⟨g1, ?_, ?_⟩
      · rw [CallData.new_objects, Function.update_noteq hne]; exact g2
      · rw [hl, List.map_append]
        intro hm
        rcases List.mem_append.mp hm with hm | hm
        · exact g3 hm
        · simp at hm; exact hne hm

/-- Under the monitor the handler is the example handler: the monitor changes
nothing of what `ListenForRequest`, `SendResponse` and `CreateNewHandler` do to
the object, write or return. -/
theorem monitored_object (env : AsyncStreamHandler → Option TryFault)
    (m : GenericAsyncHandler.Monitored) :
    ((AsyncStreamHandler.monitored env).ListenForRequest m).object =
      (AsyncStreamHandler.handler env).ListenForRequest m.object ∧
    ((AsyncStreamHandler.monitored env).CreateNewHandler m).object =
      (AsyncStreamHandler.handler env).CreateNewHandler m.object ∧
    ((AsyncStreamHandler.monitored env).SendResponse m).handler.object =
      ((AsyncStreamHandler.handler env).SendResponse m.object).handler ∧
    ((AsyncStreamHandler.monitored env).SendResponse m).tagged =
      ((AsyncStreamHandler.handler env).SendResponse m.object).tagged ∧
    ((AsyncStreamHandler.monitored env).SendResponse m).result =
      ((AsyncStreamHandler.handler env).SendResponse m.object).result :=
  ⟨rfl, rfl, rfl, rfl, rfl⟩

/-- The monitor does report a failed assertion: when `handlers_` holds the same
handler object twice, the second record created by `HandleRpcs` calls
`ListenForRequest` on an object whose writer is already bound. -/
theorem ListenForRequest_assertion_fails_on_shared_handler :
    ((GRPCAsyncServer.Run (AsyncStreamHandler.monitored (fun _ => none)) []
        (GRPCAsyncServer.create 9314 [0] [0, 0]
          (fun _ => ⟨AsyncStreamHandler.construct, false⟩) 1)).state.objects 0).assertion_failed =
      true ∧
    listens (GRPCAsyncServer.Run (AsyncStreamHandler.monitored (fun _ => none)) []
        (GRPCAsyncServer.create 9314 [0] [0, 0]
          (fun _ => ⟨AsyncStreamHandler.construct, false⟩) 1)).state.trace = [(0, 0), (1, 0)] := by
  decide

/-- C11, assertion validity of `ListenForRequest`.  Take a newly constructed
dispatcher whose `handlers_` are pairwise distinct allocated handler objects of
the example class, none of which has a writer bound (none has listened), on a
heap where no assertion has failed.  In the state in which `Run` ends, over any
polls and whatever exceptions the handlers catch, no handler object has failed
`assert(!responder_.get())`; no handler object received two `ListenForRequest`
calls and no record made two; no record of the store is in `CREATE`, the only
state in which `Proceed` calls `ListenForRequest`; and the object returned by
`CreateNewHandler`, on which a spawned record listens, passes the assertion. -/
theorem C11_listen_assertion (env : AsyncStreamHandler → Option TryFault) (polls : List Poll)
    (port : Nat) (services handlers : List Nat)
    (objects : Nat → GenericAsyncHandler.Monitored) (next_object : Nat)
    (hdistinct : handlers.Nodup)
    (halloc : ∀ p, p ∈ handlers → p < next_object)
    (hfresh : ∀ p, p ∈ handlers → (objects p).object.responder_ = false)
    (hclean : ∀ q, (objects q).assertion_failed = false) :
    (∀ q, ((GRPCAsyncServer.Run (AsyncStreamHandler.monitored env) polls
      (GRPCAsyncServer.create port services handlers objects next_object)).state.objects
        q).assertion_failed = false) ∧
    ((listens (GRPCAsyncServer.Run (AsyncStreamHandler.monitored env) polls
      (GRPCAsyncServer.create port services handlers objects next_object)).state.trace).map
        Prod.snd).Nodup ∧
    ((listens (GRPCAsyncServer.Run (AsyncStreamHandler.monitored env) polls
      (GRPCAsyncServer.create port services handlers objects next_object)).state.trace).map
        Prod.fst).Nodup ∧
    NoCreate (GRPCAsyncServer.Run (AsyncStreamHandler.monitored env) polls
      (GRPCAsyncServer.create port services handlers objects next_object)).state ∧
    (∀ m, GenericAsyncHandler.ListenForRequest_assertion
      ((AsyncStreamHandler.monitored env).CreateNewHandler m).object = true) := by
  have hregister : ∀ l : List Nat, listens (l.map Event.RegisterService) = [] := by
    intro l
    induction l with
    | nil => rfl
    | cons a l ih => simpa [listens] using ih
  have key : ListenOnce (GRPCAsyncServer.Run (AsyncStreamHandler.monitored env) polls
        (GRPCAsyncServer.create port services handlers objects next_object)).state ∧
      ∀ q, ((GRPCAsyncServer.Run (AsyncStreamHandler.monitored env) polls
        (GRPCAsyncServer.create port services handlers objects next_object)).state.objects
          q).assertion_failed = false := by
    simp only [GRPCAsyncServer.Run, register_fold]
    split
    · refine ⟨⟨?_, ?_, ?_, ?_⟩, hclean⟩
      · intro cd hmem; simp [Result.state, GRPCAsyncServer.log, GRPCAsyncServer.create] at hmem
      · intro e he
        simp [Result.state, GRPCAsyncServer.log, GRPCAsyncServer.create, listens] at he
      · simp [Result.state, GRPCAsyncServer.log, GRPCAsyncServer.create, listens]
      · simp [Result.state, GRPCAsyncServer.log, GRPCAsyncServer.create, listens]
    · next hne =>
      simp only [GRPCAsyncServer.HandleRpcs]
      split
      · next he => exact absurd he hne
      · apply loop_monitored
        · apply (seed_monitored env _ 0 _ _ _ _).1
          · refine ⟨?_, ?_, ?_, ?_⟩
            · intro cd hmem
              simp [GRPCAsyncServer.log, GRPCAsyncServer.create] at hmem
            · intro e he
              simp [GRPCAsyncServer.log, GRPCAsyncServer.create, listens, listens_append,
                hregister] at he
            · simp [GRPCAsyncServer.log, GRPCAsyncServer.create, listens, listens_append,
                hregister]
            · simp [GRPCAsyncServer.log, GRPCAsyncServer.create, listens, listens_append,
                hregister]
          · exact hclean
          · exact hdistinct
          · intro p hp
            refine ⟨halloc p hp, hfresh p hp, ?_⟩
            simp [GRPCAsyncServer.log, GRPCAsyncServer.create, listens, listens_append,
              hregister]
        · apply (seed_monitored env _ 0 _ _ _ _).2
          · refine ⟨?_, ?_, ?_, ?_⟩
            · intro cd hmem
              simp [GRPCAsyncServer.log, GRPCAsyncServer.create] at hmem
            · intro e he
              simp [GRPCAsyncServer.log, GRPCAsyncServer.create, listens, listens_append,
                hregister] at he
            · simp [GRPCAsyncServer.log, GRPCAsyncServer.create, listens, listens_append,
                hregister]
            · simp [GRPCAsyncServer.log, GRPCAsyncServer.create, listens, listens_append,
                hregister]
          · exact hclean
          · exact hdistinct
          · intro p hp
            refine ⟨halloc p hp, hfresh p hp, ?_⟩
            simp [GRPCAsyncServer.log, GRPCAsyncServer.create, listens, listens_append,
              hregister]
  exact ⟨key.2, key.1.2.2.2, key.1.2.2.1, key.1.1, fun _ => rfl⟩

/-- C11 at a concrete run: two distinct handlers, a call matched on each
listener, one chunk written, one failed event and one timeout. -/
theorem C11_listen_assertion_witness :
    (∀ q, ((GRPCAsyncServer.Run (AsyncStreamHandler.monitored (fun _ => none))
      [Poll.GOT_EVENT 0 true, Poll.GOT_EVENT 1 true, Poll.GOT_EVENT 2 false, Poll.TIMEOUT,
        Poll.GOT_EVENT 0 true]
      (GRPCAsyncServer.create 9314 [0] [0, 1]
        (fun _ => ⟨AsyncStreamHandler.construct, false⟩) 2)).state.objects
          q).assertion_failed = false) ∧
    listens (GRPCAsyncServer.Run (AsyncStreamHandler.monitored (fun _ => none))
      [Poll.GOT_EVENT 0 true, Poll.GOT_EVENT 1 true, Poll.GOT_EVENT 2 false, Poll.TIMEOUT,
        Poll.GOT_EVENT 0 true]
      (GRPCAsyncServer.create 9314 [0] [0, 1]
        (fun _ => ⟨AsyncStreamHandler.construct, false⟩) 2)).state.trace =
      [(0, 0), (1, 1), (2, 2), (3, 3)] :=
  ⟨(C11_listen_assertion (fun _ => none)
      [Poll.GOT_EVENT 0 true, Poll.GOT_EVENT 1 true, Poll.GOT_EVENT 2 false, Poll.TIMEOUT,
        Poll.GOT_EVENT 0 true]
      9314 [0] [0, 1] (fun _ => ⟨AsyncStreamHandler.construct, false⟩) 2
      (by decide) (by decide) (fun _ _ => rfl) (fun _ => rfl)).1,
    by decide⟩

/-! ## The writer is bound whenever the dispatcher calls `SendResponse` -/

theorem AsyncStreamHandler.SendResponse_responder (fault : Option TryFault)
    (x : AsyncStreamHandler) :
    (AsyncStreamHandler.SendResponse fault x).handler.responder_ = x.responder_ := by
  simp only [AsyncStreamHandler.SendResponse]
  split
  · rfl
  · split
    · rfl
    · split <;> rfl
  · split
    · rfl
    · split <;> rfl

theorem AsyncStreamHandler.bound_no_null_writer (fault : Option TryFault)
    (x : AsyncStreamHandler) (hx : x.responder_ = true) :
    AsyncStreamHandler.dereferences_null_writer fault x = false := by
  simp [AsyncStreamHandler.dereferences_null_writer, hx]

theorem new_WriterBound (env : AsyncStreamHandler → Option TryFault) (p o : Nat)
    {s : GRPCAsyncServer AsyncStreamHandler} (hs : WriterBound s) :
    WriterBound (CallData.new (AsyncStreamHandler.handler env) p o s) := by
  intro cd hmem
  rw [CallData.new_calls] at hmem
  rw [CallData.new_objects]
  by_cases hq : cd.async_service_handler_ = p
  · rw [hq, Function.update_same]; rfl
  · rw [Function.update_noteq hq]
    rcases List.mem_append.mp hmem with hm | hm
    · exact hs cd hm
    · simp at hm; subst hm; exact absurd rfl hq

theorem spawn_WriterBound (env : AsyncStreamHandler → Option TryFault) (cd : CallData)
    {s : GRPCAsyncServer AsyncStreamHandler} (hs : WriterBound s) :
    WriterBound (CallData.spawn (AsyncStreamHandler.handler env) cd s) := by
  intro cd' hmem
  rw [CallData.spawn_calls] at hmem
  rw [CallData.spawn_objects]
  by_cases hq : cd'.async_service_handler_ = s.next_object
  · rw [hq, Function.update_same]; rfl
  · rw [Function.update_noteq hq]
    rcases List.mem_append.mp hmem with hm | hm
    · exact hs cd' hm
    · simp at hm; subst hm; exact absurd rfl hq

theorem respond_WriterBound (env : AsyncStreamHandler → Option TryFault) (tag : Nat)
    (cd : CallData) {s : GRPCAsyncServer AsyncStreamHandler} (hs : WriterBound s)
    (hcd : (s.objects cd.async_service_handler_).responder_ = true) :
    WriterBound (CallData.respond (AsyncStreamHandler.handler env) tag cd s).state := by
  obtain ⟨st, -, -, hc, -⟩ := respond_state (AsyncStreamHandler.handler env) tag cd s
  intro cd' hmem
  rw [hc] at hmem
  rw [respond_objects]
  have hold : (s.objects cd'.async_service_handler_).responder_ = true := by
    rcases List.mem_or_eq_of_mem_set hmem with hm | hm
    · exact hs cd' hm
    · simp at hm; subst hm; exact hcd
  by_cases hq : cd'.async_service_handler_ = cd.async_service_handler_
  · rw [hq, Function.update_same]
    simp only [AsyncStreamHandler.handler]
    rw [AsyncStreamHandler.SendResponse_responder]
    exact hcd
  · rw [Function.update_noteq hq]; exact hold

/-- On a store whose records all have their writer bound, the handler object on
which `Proceed` calls `SendResponse` has its writer bound, so that the call does
not dereference a null writer; and the store is still such after `Proceed`. -/
theorem Proceed_WriterBound (env : AsyncStreamHandler → Option TryFault) (tag : Nat)
    {s : GRPCAsyncServer AsyncStreamHandler} (hs : WriterBound s) :
    WriterBound (CallData.Proceed (AsyncStreamHandler.handler env) tag s).state ∧
    ∀ cd, s.calls[tag]? = some (some cd) →
      (cd.status_ = CONTINUE_PROCESSING →
        (s.objects cd.async_service_handler_).responder_ = true ∧
        AsyncStreamHandler.dereferences_null_writer
          (env (s.objects cd.async_service_handler_))
          (s.objects cd.async_service_handler_) = false) ∧
      (cd.status_ = START_PROCESSING →
        ((CallData.spawn (AsyncStreamHandler.handler env) cd s).objects
          cd.async_service_handler_).responder_ = true ∧
        AsyncStreamHandler.dereferences_null_writer
          (env ((CallData.spawn (AsyncStreamHandler.handler env) cd s).objects
            cd.async_service_handler_))
          ((CallData.spawn (AsyncStreamHandler.handler env) cd s).objects
            cd.async_service_handler_) = false) := by
  have hstart : ∀ cd, s.calls[tag]? = some (some cd) →
      ((CallData.spawn (AsyncStreamHandler.handler env) cd s).objects
        cd.async_service_handler_).responder_ = true := by
    intro cd hcd
    apply spawn_WriterBound env cd hs cd
    rw [CallData.spawn_calls]
    exact List.mem_append_left _ (mem_of_getElem?' hcd)
  constructor
  · cases hcd : s.calls[tag]? with
    | none => rw [CallData.Proceed_dead (by intro cd; rw [hcd]; simp)]; exact hs
    | some o =>
      cases o with
      | none => rw [CallData.Proceed_dead (by intro cd; rw [hcd]; simp)]; exact hs
      | some cd =>
        have hmem := mem_of_getElem?' hcd
        cases hst : cd.status_ with
        | CREATE =>
          rw [CallData.Proceed_CREATE hcd hst]
          intro cd' hm
          simp only [Result.state, CallData.listen] at hm ⊢
          by_cases hq : cd'.async_service_handler_ = cd.async_service_handler_
          · rw [hq, Function.update_same]; rfl
          · rw [Function.update_noteq hq]
            rcases List.mem_or_eq_of_mem_set hm with hm | hm
            · exact hs cd' hm
            · simp at hm; subst hm; exact absurd rfl hq
        | START_PROCESSING =>
          rw [CallData.Proceed_START hcd hst]
          exact respond_WriterBound env tag cd (spawn_WriterBound env cd hs) (hstart cd hcd)
        | CONTINUE_PROCESSING =>
          rw [CallData.Proceed_CONTINUE hcd hst]
          exact respond_WriterBound env tag cd hs (hs cd hmem)
        | PUSH_TO_BACK =>
          rw [CallData.Proceed_PUSH hcd hst]
          intro cd' hm
          simp only [Result.state] at hm ⊢
          rcases List.mem_or_eq_of_mem_set hm with hm | hm
          · exact hs cd' hm
          · simp at hm; subst hm; exact hs cd hmem
        | FINISH =>
          rw [CallData.Proceed_FINISH hcd hst]
          intro cd' hm
          simp only [Result.state, CallData.delete] at hm ⊢
          rcases List.mem_or_eq_of_mem_set hm with hm | hm
          · exact hs cd' hm
          · cases hm
  · intro cd hcd
    refine ⟨fun _ => ?_, fun _ => ?_⟩
    · have := hs cd (mem_of_getElem?' hcd)
      exact ⟨this, AsyncStreamHandler.bound_no_null_writer _ _ this⟩
    · exact ⟨hstart cd hcd, AsyncStreamHandler.bound_no_null_writer _ _ (hstart cd hcd)⟩

theorem poll_WriterBound (env : AsyncStreamHandler → Option TryFault) (e : Poll)
    {s : GRPCAsyncServer AsyncStreamHandler} (hs : WriterBound s) :
    WriterBound (GRPCAsyncServer.poll (AsyncStreamHandler.handler env) s e).state := by
  cases e with
  | GOT_EVENT tag ok =>
    simp only [GRPCAsyncServer.poll]
    split
    · split
      · exact (Proceed_WriterBound env tag (s := { s with cq := s.cq.erase tag }) hs).1
      · exact hs
    · exact hs
  | TIMEOUT => exact hs
  | SHUTDOWN => exact hs

theorem loop_WriterBound (env : AsyncStreamHandler → Option TryFault) (polls : List Poll) :
    ∀ {s : GRPCAsyncServer AsyncStreamHandler}, WriterBound s →
      WriterBound (GRPCAsyncServer.loop (AsyncStreamHandler.handler env) polls s).state := by
  induction polls with
  | nil => intro s hs; exact hs
  | cons e es ih =>
    intro s hs
    have h1 := poll_WriterBound env e hs
    simp only [GRPCAsyncServer.loop]
    cases hp : GRPCAsyncServer.poll (AsyncStreamHandler.handler env) s e with
    | error c => rw [hp] at h1; exact h1
    | ok s1 => rw [hp] at h1; exact ih h1

theorem seed_WriterBound (env : AsyncStreamHandler → Option TryFault) (ps : List Nat) :
    ∀ (i : Nat) {s : GRPCAsyncServer AsyncStreamHandler}, WriterBound s →
      WriterBound (GRPCAsyncServer.seed (AsyncStreamHandler.handler env) ps i s) := by
  induction ps with
  | nil => intro i s hs; exact hs
  | cons p ps ih => intro i s hs; exact ih (i + 1) (new_WriterBound env p i hs)

/-- In the state in which `Run` ends on a dispatcher of the example handler that
held no record, over any polls, every record has a handler object whose writer
is bound: the dispatcher calls `SendResponse` only on such objects. -/
theorem Run_WriterBound (env : AsyncStreamHandler → Option TryFault) (polls : List Poll)
    (s : GRPCAsyncServer AsyncStreamHandler) (hcalls : s.calls = []) :
    WriterBound (GRPCAsyncServer.Run (AsyncStreamHandler.handler env) polls s).state := by
  have h0 : ∀ (tr : List Event) (q : List Nat),
      WriterBound ({ s with cq := q, trace := tr } : GRPCAsyncServer AsyncStreamHandler) := by
    intro tr q cd hmem
    simp [hcalls] at hmem
  simp only [GRPCAsyncServer.Run, register_fold]
  split
  · exact h0 _ _
  · simp only [GRPCAsyncServer.HandleRpcs]
    split
    · exact h0 _ _
    · exact loop_WriterBound env polls (seed_WriterBound env _ 0 (h0 _ _))

end grpcserver
